import Mathlib

/-!
Verification development for the Geneva exporter of the otel-arrow repository.

The embedding below models the two source files
`rust/otap-dataflow/crates/otap/src/geneva_exporter.rs` (columnar log decoding,
attribute joining, and the exporter message loop) and
`rust/otap-dataflow/crates/geneva-exporter/src/lib.rs` (the `BatchRetryConfig`
declaration).  Arrow arrays are modelled as lists of buffer values together
with a null bitmap; a Rust panic (out-of-bounds array access) is modelled by
the `Fail.panic` outcome, a `Result::Err(String)` by `Fail.err`.
-/

set_option autoImplicit false

namespace GenevaSpec

/-! ## Arrow column model -/

/-- Failure outcomes of the decoding functions: `err` models `Result::Err(msg)`
in the source, `panic` models a Rust panic (unchecked array access). -/
inductive Fail where
  | err (msg : String)
  | panic
deriving DecidableEq

/-- A primitive Arrow array: a buffer of values plus a null bitmap
(`true` means the slot is null).  `value(i)` reads the buffer even for a
null slot, mirroring `arrow::array::PrimitiveArray`. -/
structure PrimCol (α : Type) where
  vals : List α
  nulls : List Bool
deriving DecidableEq

/-- Mirrors `Array::is_null(i)`: reads the null bitmap; out-of-range reads
answer `false` (no null buffer entry). -/
def PrimCol.isNullAt {α : Type} (c : PrimCol α) (i : Nat) : Bool :=
  c.nulls.getD i false

/-- Mirrors `PrimitiveArray::value(i)`: panics when `i` is outside the buffer. -/
def PrimCol.valueAt {α : Type} (c : PrimCol α) (i : Nat) : Except Fail α :=
  match c.vals[i]? with
  | some v => .ok v
  | none => .error .panic

/-- The dynamically-typed values array of a dictionary column, as narrowed by
`downcast_ref` in the source (`StringArray`, `Int64Array`, `Int32Array`). -/
inductive Vals where
  | strs (l : List String)
  | i64s (l : List Int)
  | i32s (l : List Int)
deriving DecidableEq

/-- Mirrors `values().as_any().downcast_ref::<StringArray>()`. -/
def Vals.asStrs : Vals → Option (List String)
  | .strs l => some l
  | _ => none

/-- Mirrors `values().as_any().downcast_ref::<Int64Array>()`. -/
def Vals.asI64s : Vals → Option (List Int)
  | .i64s l => some l
  | _ => none

/-- Mirrors `values().as_any().downcast_ref::<Int32Array>()`. -/
def Vals.asI32s : Vals → Option (List Int)
  | .i32s l => some l
  | _ => none

/-- A dictionary-encoded Arrow array: integer keys (with a null bitmap)
indexing into a shared values array. -/
structure DictCol where
  keys : PrimCol Nat
  values : Vals
deriving DecidableEq

/-- Mirrors `DictionaryArray::is_null(i)` (the keys' null bitmap). -/
def DictCol.isNullAt (d : DictCol) (i : Nat) : Bool :=
  d.keys.isNullAt i

/-- A dynamically-typed Arrow column as it sits in a `RecordBatch`; the
constructors are the physical layouts the source downcasts to.  `dict8` and
`dict16` are dictionary arrays with `UInt8` resp. `UInt16` keys; `strct` is a
`StructArray` with its own null bitmap and named child columns. -/
inductive Col where
  | u16 (c : PrimCol Nat)
  | u8 (c : PrimCol Nat)
  | u32 (c : PrimCol Nat)
  | tsNano (c : PrimCol Int)
  | bin (c : PrimCol (List Nat))
  | dict8 (c : DictCol)
  | dict16 (c : DictCol)
  | strct (nulls : List Bool) (fields : List (String × Col))

/-- Mirrors `downcast_ref::<UInt16Array>()`. -/
def Col.asU16 : Col → Option (PrimCol Nat)
  | .u16 c => some c
  | _ => none

/-- Mirrors `downcast_ref::<UInt8Array>()`. -/
def Col.asU8 : Col → Option (PrimCol Nat)
  | .u8 c => some c
  | _ => none

/-- Mirrors `downcast_ref::<UInt32Array>()`. -/
def Col.asU32 : Col → Option (PrimCol Nat)
  | .u32 c => some c
  | _ => none

/-- Mirrors `downcast_ref::<TimestampNanosecondArray>()`. -/
def Col.asTsNano : Col → Option (PrimCol Int)
  | .tsNano c => some c
  | _ => none

/-- Mirrors `downcast_ref::<BinaryArray>()`. -/
def Col.asBin : Col → Option (PrimCol (List Nat))
  | .bin c => some c
  | _ => none

/-- Mirrors `downcast_ref::<DictionaryArray<UInt8Type>>()`. -/
def Col.asDict8 : Col → Option DictCol
  | .dict8 c => some c
  | _ => none

/-- Mirrors `downcast_ref::<DictionaryArray<UInt16Type>>()`. -/
def Col.asDict16 : Col → Option DictCol
  | .dict16 c => some c
  | _ => none

/-- Mirrors `downcast_ref::<StructArray>()`. -/
def Col.asStruct : Col → Option (List Bool × List (String × Col))
  | .strct nulls fields => some (nulls, fields)
  | _ => none

/-- A columnar batch: a row count and named columns, mirroring
`arrow::array::RecordBatch`. -/
structure RecordBatch where
  nrows : Nat
  cols : List (String × Col)

/-- Mirrors `RecordBatch::column_by_name`. -/
def RecordBatch.columnByName (b : RecordBatch) (name : String) : Option Col :=
  (b.cols.find? (fun p => p.1 == name)).map Prod.snd

/-- Mirrors `StructArray::column_by_name`. -/
def structField (fields : List (String × Col)) (name : String) : Option Col :=
  (fields.find? (fun p => p.1 == name)).map Prod.snd

/-! ## geneva_uploader client data model (the record types the exporter fills) -/

/-- Mirrors `geneva_uploader::client::AttributeValue` (`String` | `Int`). -/
inductive AttributeValue where
  | str (s : String)
  | int (i : Int)
deriving DecidableEq

/-- Mirrors `geneva_uploader::client::LogAttribute`. -/
structure LogAttribute where
  key : String
  value : AttributeValue
deriving DecidableEq

/-- Mirrors `geneva_uploader::client::LogBody` (only the string variant is
produced by this exporter). -/
inductive LogBody where
  | str (s : String)
deriving DecidableEq

/-- Mirrors `geneva_uploader::client::LogRecordData` with the fields the
exporter fills.  `trace_id`/`span_id` are byte sequences (empty if absent). -/
structure LogRecordData where
  time_unix_nano : Option Nat
  observed_time_unix_nano : Option Nat
  severity_number : Option Int
  severity_text : Option String
  body : Option LogBody
  attributes : List LogAttribute
  trace_id : List Nat
  span_id : List Nat
  flags : Option Nat
  event_name : Option String
deriving DecidableEq

/-! ## Dictionary accessors (the closures of `geneva_exporter.rs`) -/

/-- Key extraction of `extract_and_attach_attributes` /
`extract_and_attach_resource_attributes`: downcast the `key` column to
`DictionaryArray<UInt8Type>`, null-check the slot, read the key index
(`keys().value(attr_idx)`, a panicking read) and resolve it in the
`StringArray` values (`values.value(key_idx)`, a panicking read). -/
def extractDictKey8Str (keyCol : Col) (i : Nat) : Except Fail (Option String) :=
  match keyCol.asDict8 with
  | none => .ok none
  | some d =>
    if d.isNullAt i then .ok none
    else
      match d.keys.valueAt i with
      | .error e => .error e
      | .ok keyIdx =>
        match d.values.asStrs with
        | none => .ok none
        | some vs =>
          match vs[keyIdx]? with
          | some s => .ok (some s)
          | none => .error .panic

/-- The type-1 (string) value arm of the attribute loops: downcast the `str`
column (when present) to `DictionaryArray<UInt16Type>`, null-check, read the
key index and resolve it in the `StringArray` values. -/
def extractStrValue (strCol : Option Col) (i : Nat) : Except Fail (Option AttributeValue) :=
  match strCol.bind Col.asDict16 with
  | none => .ok none
  | some d =>
    if d.isNullAt i then .ok none
    else
      match d.keys.valueAt i with
      | .error e => .error e
      | .ok valIdx =>
        match d.values.asStrs with
        | none => .ok none
        | some vs =>
          match vs[valIdx]? with
          | some s => .ok (some (.str s))
          | none => .error .panic

/-- The type-2 (int) value arm of `extract_and_attach_attributes`: downcast the
`int` column (when present) to `DictionaryArray<UInt16Type>`, null-check, read
the key index and resolve it in the `Int64Array` values. -/
def extractIntValue (intCol : Option Col) (i : Nat) : Except Fail (Option AttributeValue) :=
  match intCol.bind Col.asDict16 with
  | none => .ok none
  | some d =>
    if d.isNullAt i then .ok none
    else
      match d.keys.valueAt i with
      | .error e => .error e
      | .ok valIdx =>
        match d.values.asI64s with
        | none => .ok none
        | some vs =>
          match vs[valIdx]? with
          | some v => .ok (some (.int v))
          | none => .error .panic

/-! ## extract_and_attach_attributes -/

/-- Mirrors `log_records[parent_id].attributes.push(..)`: an out-of-bounds
index panics, otherwise the attribute is appended to that record's list. -/
def pushAttrAtE (recs : List LogRecordData) (p : Nat) (a : LogAttribute) :
    Except Fail (List LogRecordData) :=
  match recs[p]? with
  | some r => .ok (recs.set p { r with attributes := r.attributes ++ [a] })
  | none => .error .panic

/-- The body of the per-row loop of `extract_and_attach_attributes`: skip the
row when `parent_id` is null or out of range of the records, extract the key,
dispatch on the `type` tag (1 = string, 2 = int, anything else skipped), and
push the attribute onto `log_records[parent_id]`. -/
def processAttrRow (parentIdCol typeCol : PrimCol Nat) (keyCol : Col)
    (strCol intCol : Option Col) (recs : List LogRecordData) (i : Nat) :
    Except Fail (List LogRecordData) :=
  if parentIdCol.isNullAt i then .ok recs
  else
    match parentIdCol.valueAt i with
    | .error e => .error e
    | .ok parentId =>
      if recs.length ≤ parentId then .ok recs
      else
        match extractDictKey8Str keyCol i with
        | .error e => .error e
        | .ok none => .ok recs
        | .ok (some key) =>
          match typeCol.valueAt i with
          | .error e => .error e
          | .ok attrType =>
            match (match attrType with
                   | 1 => extractStrValue strCol i
                   | 2 => extractIntValue intCol i
                   | _ => .ok none) with
            | .error e => .error e
            | .ok none => .ok recs
            | .ok (some v) => pushAttrAtE recs parentId { key := key, value := v }

/-- The `for attr_idx in 0..num_attr_rows` loop of
`extract_and_attach_attributes`, as structural recursion over the row indices. -/
def attachAttrRows (parentIdCol typeCol : PrimCol Nat) (keyCol : Col)
    (strCol intCol : Option Col) :
    List Nat → List LogRecordData → Except Fail (List LogRecordData)
  | [], recs => .ok recs
  | i :: rest, recs =>
    match processAttrRow parentIdCol typeCol keyCol strCol intCol recs i with
    | .error e => .error e
    | .ok recs1 => attachAttrRows parentIdCol typeCol keyCol strCol intCol rest recs1

/-- Mirrors `GenevaExporter::extract_and_attach_attributes`: resolve the
`parent_id`, `key` and `type` columns (missing or wrongly-typed required
columns are `Result::Err`), then scan every attribute row and attach the
decoded attributes to `log_records[parent_id]`. -/
def extract_and_attach_attributes (logRecords : List LogRecordData)
    (attrsBatch : RecordBatch) : Except Fail (List LogRecordData) :=
  match (attrsBatch.columnByName "parent_id").map Col.asU16 with
  | none => .error (.err "parent_id column not found")
  | some none => .error (.err "parent_id is not UInt16Array")
  | some (some parentIdCol) =>
    match attrsBatch.columnByName "key" with
    | none => .error (.err "key column not found")
    | some keyCol =>
      match (attrsBatch.columnByName "type").map Col.asU8 with
      | none => .error (.err "type column not found")
      | some none => .error (.err "type is not UInt8Array")
      | some (some typeCol) =>
        attachAttrRows parentIdCol typeCol keyCol
          (attrsBatch.columnByName "str") (attrsBatch.columnByName "int")
          (List.range attrsBatch.nrows) logRecords

/-! ## extract_and_attach_resource_attributes -/

/-- The value arm of the resource-attribute loop: the source handles only the
string tag (`if attr_type == 1 { .. } else { None }` with the comment
"for now, only handling string type = 1"). -/
def resMapValue (strCol : Option Col) (attrType : Nat) (i : Nat) :
    Except Fail (Option AttributeValue) :=
  if attrType = 1 then extractStrValue strCol i else .ok none

/-- The `resource_id -> Vec<(key, value)>` map being built; a function from
ids to ordered lists models the `HashMap` (only point lookups are performed,
and per-key insertion order is preserved by `Vec::push`). -/
def ResAttrsMap : Type := Nat → List (String × AttributeValue)

/-- The body of the map-building loop of
`extract_and_attach_resource_attributes`: skip null `parent_id`, extract the
key, keep only type-1 (string) values, and append to the entry of
`resource_id`. -/
def processResAttrRow (parentIdCol typeCol : PrimCol Nat) (keyCol : Col)
    (strCol : Option Col) (m : ResAttrsMap) (i : Nat) : Except Fail ResAttrsMap :=
  if parentIdCol.isNullAt i then .ok m
  else
    match parentIdCol.valueAt i with
    | .error e => .error e
    | .ok resourceId =>
      match extractDictKey8Str keyCol i with
      | .error e => .error e
      | .ok none => .ok m
      | .ok (some key) =>
        match typeCol.valueAt i with
        | .error e => .error e
        | .ok attrType =>
          match resMapValue strCol attrType i with
          | .error e => .error e
          | .ok none => .ok m
          | .ok (some v) =>
            .ok (fun q => if q = resourceId then m q ++ [(key, v)] else m q)

/-- The `for attr_idx in 0..num_attr_rows` map-building loop. -/
def buildResMap (parentIdCol typeCol : PrimCol Nat) (keyCol : Col)
    (strCol : Option Col) : List Nat → ResAttrsMap → Except Fail ResAttrsMap
  | [], m => .ok m
  | i :: rest, m =>
    match processResAttrRow parentIdCol typeCol keyCol strCol m i with
    | .error e => .error e
    | .ok m1 => buildResMap parentIdCol typeCol keyCol strCol rest m1

/-- Pushing the attributes of one resource entry onto `log_records[log_idx]`,
one `(key, value)` pair at a time (the inner `for (key, value) in attrs`
loop). -/
def pushKVs (logIdx : Nat) :
    List (String × AttributeValue) → List LogRecordData → Except Fail (List LogRecordData)
  | [], recs => .ok recs
  | kv :: rest, recs =>
    match pushAttrAtE recs logIdx { key := kv.1, value := kv.2 } with
    | .error e => .error e
    | .ok recs1 => pushKVs logIdx rest recs1

/-- The `for (log_idx, resource_id_opt) in resource_ids.iter().enumerate()`
fan-out loop, with the running enumeration index made explicit. -/
def attachResRowsGo (m : ResAttrsMap) :
    Nat → List (Option Nat) → List LogRecordData → Except Fail (List LogRecordData)
  | _, [], recs => .ok recs
  | idx, ro :: rest, recs =>
    match ro with
    | none => attachResRowsGo m (idx + 1) rest recs
    | some rid =>
      match pushKVs idx (m rid) recs with
      | .error e => .error e
      | .ok recs1 => attachResRowsGo m (idx + 1) rest recs1

/-- Mirrors `GenevaExporter::extract_and_attach_resource_attributes`: build the
`resource_id -> attributes` map from the resource-attribute batch, then append
each record's resource attributes according to its resolved resource id. -/
def extract_and_attach_resource_attributes (logRecords : List LogRecordData)
    (resAttrsBatch : RecordBatch) (resourceIds : List (Option Nat)) :
    Except Fail (List LogRecordData) :=
  match (resAttrsBatch.columnByName "parent_id").map Col.asU16 with
  | none => .error (.err "parent_id column not found in ResourceAttrs")
  | some none => .error (.err "parent_id is not UInt16Array")
  | some (some parentIdCol) =>
    match resAttrsBatch.columnByName "key" with
    | none => .error (.err "key column not found in ResourceAttrs")
    | some keyCol =>
      match (resAttrsBatch.columnByName "type").map Col.asU8 with
      | none => .error (.err "type column not found in ResourceAttrs")
      | some none => .error (.err "type is not UInt8Array")
      | some (some typeCol) =>
        match buildResMap parentIdCol typeCol keyCol
            (resAttrsBatch.columnByName "str")
            (List.range resAttrsBatch.nrows) (fun _ => []) with
        | .error e => .error e
        | .ok m => attachResRowsGo m 0 resourceIds logRecords

/-! ## convert_otap_to_log_records -/

/-- The OTAP payload container as used by the exporter: only the `Logs`,
`LogAttrs` and `ResourceAttrs` payload slots of `OtapArrowRecords` are read. -/
structure OtapArrowRecords where
  logs : Option RecordBatch
  logAttrs : Option RecordBatch
  resourceAttrs : Option RecordBatch

/-- Mirrors `as u64` on the `i64` returned by
`TimestampNanosecondArray::value`: a wrapping bit-cast. -/
def u64OfI64 (x : Int) : Nat :=
  (x % ((2 : Int) ^ 64)).toNat

/-- Mirrors `if arr.is_null(row_idx) { None } else { Some(arr.value(row_idx)) }`. -/
def primValueOpt {α : Type} (c : PrimCol α) (i : Nat) : Except Fail (Option α) :=
  if c.isNullAt i then .ok none
  else
    match c.valueAt i with
    | .error e => .error e
    | .ok v => .ok (some v)

/-- Mirrors the `get_severity_number` closure: downcast to
`DictionaryArray<UInt8Type>`, null-check, resolve the key in the `Int32Array`
values. -/
def get_severity_number (c : Col) (idx : Nat) : Except Fail (Option Int) :=
  match c.asDict8 with
  | none => .ok none
  | some d =>
    if d.isNullAt idx then .ok none
    else
      match d.keys.valueAt idx with
      | .error e => .error e
      | .ok key =>
        match d.values.asI32s with
        | none => .ok none
        | some vs =>
          match vs[key]? with
          | some v => .ok (some v)
          | none => .error .panic

/-- Mirrors the `get_severity_text` closure: downcast to
`DictionaryArray<UInt8Type>`, null-check, resolve the key in the `StringArray`
values. -/
def get_severity_text (c : Col) (idx : Nat) : Except Fail (Option String) :=
  match c.asDict8 with
  | none => .ok none
  | some d =>
    if d.isNullAt idx then .ok none
    else
      match d.keys.valueAt idx with
      | .error e => .error e
      | .ok key =>
        match d.values.asStrs with
        | none => .ok none
        | some vs =>
          match vs[key]? with
          | some s => .ok (some s)
          | none => .error .panic

/-- Mirrors the `get_body` closure: downcast to `StructArray`, null-check the
struct slot, fetch the `str` child as `DictionaryArray<UInt16Type>`,
null-check, resolve the key in the `StringArray` values. -/
def get_body (c : Col) (idx : Nat) : Except Fail (Option LogBody) :=
  match c.asStruct with
  | none => .ok none
  | some (nulls, fields) =>
    if nulls.getD idx false then .ok none
    else
      match (structField fields "str").bind Col.asDict16 with
      | none => .ok none
      | some d =>
        if d.isNullAt idx then .ok none
        else
          match d.keys.valueAt idx with
          | .error e => .error e
          | .ok key =>
            match d.values.asStrs with
            | none => .ok none
            | some vs =>
              match vs[key]? with
              | some s => .ok (some (.str s))
              | none => .error .panic

/-- The primary-table columns resolved once before the row loop of
`convert_otap_to_log_records` (each is `None` when absent or of the wrong
physical layout). -/
structure PrimaryCols where
  timeCol : Option (PrimCol Int)
  obsCol : Option (PrimCol Int)
  sevNumCol : Option Col
  sevTextCol : Option Col
  bodyCol : Option Col
  traceCol : Option (PrimCol (List Nat))
  spanCol : Option (PrimCol (List Nat))
  flagsCol : Option (PrimCol Nat)

/-- The column-resolution prologue of `convert_otap_to_log_records`. -/
def primaryCols (b : RecordBatch) : PrimaryCols where
  timeCol := (b.columnByName "time_unix_nano").bind Col.asTsNano
  obsCol := (b.columnByName "observed_time_unix_nano").bind Col.asTsNano
  sevNumCol := b.columnByName "severity_number"
  sevTextCol := b.columnByName "severity_text"
  bodyCol := b.columnByName "body"
  traceCol := (b.columnByName "trace_id").bind Col.asBin
  spanCol := (b.columnByName "span_id").bind Col.asBin
  flagsCol := (b.columnByName "flags").bind Col.asU32

/-- One iteration of the `for row_idx in 0..num_rows` record-building loop:
every optional column degrades to an absent field, `trace_id`/`span_id`
default to the empty byte sequence, `attributes` starts empty. -/
def buildRow (pc : PrimaryCols) (i : Nat) : Except Fail LogRecordData :=
  match (match pc.timeCol with
         | none => .ok none
         | some c => primValueOpt c i : Except Fail (Option Int)) with
  | .error e => .error e
  | .ok tv =>
    match (match pc.obsCol with
           | none => .ok none
           | some c => primValueOpt c i : Except Fail (Option Int)) with
    | .error e => .error e
    | .ok ov =>
      match (match pc.sevNumCol with
             | none => .ok none
             | some c => get_severity_number c i : Except Fail (Option Int)) with
      | .error e => .error e
      | .ok sn =>
        match (match pc.sevTextCol with
               | none => .ok none
               | some c => get_severity_text c i : Except Fail (Option String)) with
        | .error e => .error e
        | .ok st =>
          match (match pc.bodyCol with
                 | none => .ok none
                 | some c => get_body c i : Except Fail (Option LogBody)) with
          | .error e => .error e
          | .ok bd =>
            match (match pc.traceCol with
                   | none => .ok none
                   | some c => primValueOpt c i : Except Fail (Option (List Nat))) with
            | .error e => .error e
            | .ok tr =>
              match (match pc.spanCol with
                     | none => .ok none
                     | some c => primValueOpt c i : Except Fail (Option (List Nat))) with
              | .error e => .error e
              | .ok sp =>
                match (match pc.flagsCol with
                       | none => .ok none
                       | some c => primValueOpt c i : Except Fail (Option Nat)) with
                | .error e => .error e
                | .ok fl =>
                  .ok { time_unix_nano := tv.map u64OfI64
                        observed_time_unix_nano := ov.map u64OfI64
                        severity_number := sn
                        severity_text := st
                        body := bd
                        attributes := []
                        trace_id := tr.getD []
                        span_id := sp.getD []
                        flags := fl
                        event_name := none }

/-- The record-building loop over the primary-table row indices. -/
def buildRows (pc : PrimaryCols) : List Nat → Except Fail (List LogRecordData)
  | [] => .ok []
  | i :: rest =>
    match buildRow pc i with
    | .error e => .error e
    | .ok r =>
      match buildRows pc rest with
      | .error e => .error e
      | .ok rs => .ok (r :: rs)

/-- The per-row resource-id extraction: downcast the `resource` column to
`StructArray`, null-check, fetch the `id` child as `UInt16Array`, null-check,
read the value. -/
def resourceIdAt (c : Col) (i : Nat) : Except Fail (Option Nat) :=
  match c.asStruct with
  | none => .ok none
  | some (nulls, fields) =>
    if nulls.getD i false then .ok none
    else
      match (structField fields "id").bind Col.asU16 with
      | none => .ok none
      | some idCol =>
        if idCol.isNullAt i then .ok none
        else
          match idCol.valueAt i with
          | .error e => .error e
          | .ok v => .ok (some v)

/-- The `(0..num_rows).map(|row_idx| ..).collect()` building of
`resource_ids`. -/
def resIdsRows (c : Col) : List Nat → Except Fail (List (Option Nat))
  | [] => .ok []
  | i :: rest =>
    match resourceIdAt c i with
    | .error e => .error e
    | .ok v =>
      match resIdsRows c rest with
      | .error e => .error e
      | .ok vs => .ok (v :: vs)

/-- Mirrors `GenevaExporter::convert_otap_to_log_records`: fail with the
"no primary data" error when the `Logs` payload is absent; otherwise build one
record per primary-table row, attach log attributes (when the `LogAttrs`
batch is present), resolve per-row resource ids, and attach resource
attributes (when the `ResourceAttrs` batch is present). -/
def convert_otap_to_log_records (otapBatch : OtapArrowRecords) :
    Except Fail (List LogRecordData) :=
  match otapBatch.logs with
  | none => .error (.err "No logs record batch in OTAP data")
  | some recordBatch =>
    match buildRows (primaryCols recordBatch) (List.range recordBatch.nrows) with
    | .error e => .error e
    | .ok logRecords0 =>
      match (match otapBatch.logAttrs with
             | some attrsBatch => extract_and_attach_attributes logRecords0 attrsBatch
             | none => .ok logRecords0) with
      | .error e => .error e
      | .ok logRecords1 =>
        match (match recordBatch.columnByName "resource" with
               | some resCol => resIdsRows resCol (List.range recordBatch.nrows)
               | none => .ok (List.replicate recordBatch.nrows none)) with
        | .error e => .error e
        | .ok resourceIds =>
          match (match otapBatch.resourceAttrs with
                 | some resAttrsBatch =>
                   extract_and_attach_resource_attributes logRecords1 resAttrsBatch resourceIds
                 | none => .ok logRecords1) with
          | .error e => .error e
          | .ok logRecords2 => .ok logRecords2

/-! ## Exporter state machine (`GenevaExporter::start`) -/

/-- The engine's signal kinds, as far as this exporter inspects them. -/
inductive SignalType where
  | logs
  | traces
  | metrics
deriving DecidableEq

/-- Mirrors `geneva_uploader`'s encoded batch (`event_name`, `data` bytes). -/
structure EncodedBatch where
  event_name : String
  data : List Nat
deriving DecidableEq

/-- The counters of `ExporterPDataMetrics` touched by this exporter. -/
structure ExporterPDataMetrics where
  logs_consumed : Nat
  logs_exported : Nat
  logs_failed : Nat
deriving DecidableEq

/-- Mirrors `pdata_metrics.inc_consumed(SignalType::Logs)`. -/
def incConsumed (m : ExporterPDataMetrics) : ExporterPDataMetrics :=
  { m with logs_consumed := m.logs_consumed + 1 }

/-- Mirrors `pdata_metrics.logs_exported.inc()`. -/
def incExported (m : ExporterPDataMetrics) : ExporterPDataMetrics :=
  { m with logs_exported := m.logs_exported + 1 }

/-- Mirrors `pdata_metrics.logs_failed.inc()`. -/
def incFailed (m : ExporterPDataMetrics) : ExporterPDataMetrics :=
  { m with logs_failed := m.logs_failed + 1 }

/-- The payload variants the exporter distinguishes: OTAP Arrow records, or
any other `OtapPayload` variant. -/
inductive OtapPayload where
  | otapArrowRecords (r : OtapArrowRecords)
  | otherPayload

/-- An inbound data message: its signal kind and payload. -/
structure Pdata where
  signal : SignalType
  payload : OtapPayload

/-- The messages the exporter loop matches on: shutdown (with deadline),
telemetry collection, data, or anything else (ignored). -/
inductive NodeMsg where
  | shutdown (deadline : Nat)
  | collectTelemetry
  | pdata (d : Pdata)
  | otherMsg

/-- The externally observable actions of one loop iteration.  `ack`/`nack`
are the acknowledgement channel back to the engine (`notify_ack` /
`notify_nack`); this exporter only ever calls `notify_ack`.  `encodeCall`
and `uploadCall` are the calls into the opaque Geneva client. -/
inductive Event where
  | ack
  | nack (reason : String)
  | encodeCall (records : List LogRecordData)
  | uploadCall (b : EncodedBatch)
deriving DecidableEq

/-- Predicate picking out acknowledgement events. -/
def Event.isAck : Event → Bool
  | .ack => true
  | _ => false

/-- Predicate picking out negative-acknowledgement events. -/
def Event.isNack : Event → Bool
  | .nack _ => true
  | _ => false

/-- Predicate picking out upload calls. -/
def Event.isUpload : Event → Bool
  | .uploadCall _ => true
  | _ => false

/-- The opaque collaborators owned by the node: the encoder
(`encode_and_compress_otap_logs`) and the per-batch uploader
(`upload_batch`), each returning success or a textual error. -/
structure Env where
  encode : List LogRecordData → Except String (List EncodedBatch)
  upload : EncodedBatch → Except String Unit

/-- The mutable state of the message loop: the record buffer and the metric
counters. -/
structure ExporterState where
  buffer : List LogRecordData
  metrics : ExporterPDataMetrics
deriving DecidableEq

/-- Mirrors `TerminalState::new(deadline, [pdata_metrics])`. -/
structure TerminalState where
  deadline : Nat
  metrics : ExporterPDataMetrics
deriving DecidableEq

/-- The continuation of one loop iteration: keep looping, stop with a
terminal state, or abort via a Rust panic inside the iteration. -/
inductive StepOut where
  | next (st : ExporterState)
  | done (t : TerminalState)
  | aborted
deriving DecidableEq

/-- The per-batch upload loop (`for (idx, batch) in batches.iter().enumerate()`):
every batch is attempted in order; a failed upload increments `logs_failed`, a
successful one `logs_exported`; failures do not stop later batches. -/
def uploadAll (env : Env) : List EncodedBatch → ExporterPDataMetrics →
    List Event × ExporterPDataMetrics
  | [], m => ([], m)
  | b :: rest, m =>
    let m1 := match env.upload b with
              | .ok _ => incExported m
              | .error _ => incFailed m
    let (evts, m2) := uploadAll env rest m1
    (Event.uploadCall b :: evts, m2)

/-- One iteration of the `loop { match msg_chan.recv().await? { .. } }` body of
`GenevaExporter::start`, with the emitted events made explicit.

* Shutdown: when the buffer is non-empty the buffered records are passed to
  the encoder (its result is only logged, never uploaded), then the loop
  returns `TerminalState::new(deadline, metrics)`.
* CollectTelemetry: reports counters, state unchanged.
* Data: non-logs signals are skipped (`continue`) without any acknowledgement;
  logs signals are counted as consumed and acknowledged unconditionally
  (`notify_ack`) before the payload is decoded; OTAP payloads are converted,
  appended to the buffer, and flushed (encode, then upload every batch) once
  `buffer.len() >= max_buffer_size`, after which the buffer is cleared
  unconditionally; conversion or encode failures increment `logs_failed`.
* Other messages are ignored. -/
def GenevaExporter.step (maxBufferSize : Nat) (env : Env) (st : ExporterState)
    (msg : NodeMsg) : List Event × StepOut :=
  match msg with
  | .shutdown deadline =>
    ((if st.buffer.isEmpty then [] else [Event.encodeCall st.buffer]),
     .done { deadline := deadline, metrics := st.metrics })
  | .collectTelemetry => ([], .next st)
  | .otherMsg => ([], .next st)
  | .pdata d =>
    if d.signal = SignalType.logs then
      let m1 := incConsumed st.metrics
      match d.payload with
      | .otherPayload => ([Event.ack], .next { st with metrics := m1 })
      | .otapArrowRecords otapBatch =>
        match convert_otap_to_log_records otapBatch with
        | .ok records =>
          let buf := st.buffer ++ records
          if maxBufferSize ≤ buf.length then
            match env.encode buf with
            | .ok batches =>
              let (uevts, m2) := uploadAll env batches m1
              (Event.ack :: Event.encodeCall buf :: uevts,
               .next { buffer := [], metrics := m2 })
            | .error _ =>
              ([Event.ack, Event.encodeCall buf],
               .next { buffer := [], metrics := incFailed m1 })
          else
            ([Event.ack], .next { buffer := buf, metrics := m1 })
        | .error (.err _) => ([Event.ack], .next { st with metrics := incFailed m1 })
        | .error .panic => ([Event.ack], .aborted)
    else
      ([], .next st)

/-! ## Batch retry policy

`BatchRetryConfig` is declared in
`rust/otap-dataflow/crates/geneva-exporter/src/lib.rs`; durations are modelled
in milliseconds and the `f64` multiplier as a rational number. -/

/-- Mirrors `BatchRetryConfig`: "Maximum number of attempts per batch (initial
try + retries)", initial/maximum backoff, exponential multiplier, enable flag. -/
structure BatchRetryConfig where
  max_retries : Nat
  initial_interval : ℚ
  max_interval : ℚ
  multiplier : ℚ
  enabled : Bool
deriving DecidableEq

/-- Mirrors `impl Default for BatchRetryConfig`
(3, 100ms, 5s, 2.0, enabled). -/
def BatchRetryConfig.default : BatchRetryConfig :=
  { max_retries := 3
    initial_interval := 100
    max_interval := 5000
    multiplier := 2
    enabled := true }

/-- Modelled from the spec: the invariant of §3,
"effective max attempts = max(1, max_retries) when enabled, else exactly 1
attempt".  The `upload_with_retry` loop itself is not under `src/` (only its
configuration declaration `BatchRetryConfig` is). -/
def effectiveMaxAttempts (p : BatchRetryConfig) : Nat :=
  if p.enabled then max 1 p.max_retries else 1

/-- Modelled from the spec: after each failed attempt the delay "is set to
`min(delay * multiplier, max_interval)` (when `max_interval` is the zero
duration, treat it as unbounded)". -/
def nextDelay (p : BatchRetryConfig) (delay : ℚ) : ℚ :=
  if p.max_interval = 0 then delay * p.multiplier
  else min (delay * p.multiplier) p.max_interval

/-- The observable outcome of one retried upload: final success flag, the
suspension delays between attempts, and the attempt numbers tried. -/
structure RetryOutcome where
  success : Bool
  delays : List ℚ
  attempts : List Nat
deriving DecidableEq

/-- Modelled from the spec (§4.4): the attempt state machine of the resilient
uploader, which is not under `src/`.  State `Attempting(n)` starting at
`n = 1`; success is terminal; failure with `n >= effective_max_attempts` is
terminal failure; otherwise suspend for `delay` and move to `Attempting(n+1)`
with the delay updated by `nextDelay`.  The fuel argument is
`effective_max_attempts - n + 1`, the number of attempts still allowed. -/
def attemptSeq (f : Nat → Bool) (p : BatchRetryConfig) :
    Nat → Nat → ℚ → RetryOutcome
  | 0, _, _ => { success := false, delays := [], attempts := [] }
  | fuel + 1, n, delay =>
    if f n then { success := true, delays := [], attempts := [n] }
    else if fuel = 0 then { success := false, delays := [], attempts := [n] }
    else
      let rest := attemptSeq f p fuel (n + 1) (nextDelay p delay)
      { success := rest.success
        delays := delay :: rest.delays
        attempts := n :: rest.attempts }

/-- Modelled from the spec: `upload_with_retry(batch, policy, upload_fn)`,
with the per-attempt outcome abstracted as `f n = true` iff attempt `n`
succeeds. -/
def upload_with_retry (p : BatchRetryConfig) (f : Nat → Bool) : RetryOutcome :=
  attemptSeq f p (effectiveMaxAttempts p) 1 p.initial_interval

/-! ## Characterization of the attribute join

The following definitions give a closed, per-row description of what the
attach loops do; they are related to the loops by the lemmas further below
and are the vocabulary of the row-order / attribute-order theorems. -/

/-- The contribution of log-attribute row `i`: `none` when the row is skipped
(null or out-of-range `parent_id`, unresolvable key, unhandled type tag,
unresolvable value, or any panic), otherwise the target record index and the
attribute pushed onto it. -/
def logRowContrib (parentIdCol typeCol : PrimCol Nat) (keyCol : Col)
    (strCol intCol : Option Col) (nrecs : Nat) (i : Nat) :
    Option (Nat × LogAttribute) :=
  if parentIdCol.isNullAt i then none
  else
    match parentIdCol.valueAt i with
    | .error _ => none
    | .ok parentId =>
      if nrecs ≤ parentId then none
      else
        match extractDictKey8Str keyCol i with
        | .error _ => none
        | .ok none => none
        | .ok (some key) =>
          match typeCol.valueAt i with
          | .error _ => none
          | .ok attrType =>
            match (match attrType with
                   | 1 => extractStrValue strCol i
                   | 2 => extractIntValue intCol i
                   | _ => .ok none) with
            | .error _ => none
            | .ok none => none
            | .ok (some v) => some (parentId, { key := key, value := v })

/-- All attributes the log-attribute rows `rows` push onto record `j`, in scan
order. -/
def collectLog (parentIdCol typeCol : PrimCol Nat) (keyCol : Col)
    (strCol intCol : Option Col) (nrecs : Nat) (rows : List Nat) (j : Nat) :
    List LogAttribute :=
  rows.filterMap fun i =>
    match logRowContrib parentIdCol typeCol keyCol strCol intCol nrecs i with
    | some (p, a) => if p = j then some a else none
    | none => none

/-- The contribution of resource-attribute row `i`: the resource id keyed and
the `(key, value)` pair appended to its map entry, `none` when skipped. -/
def resRowContrib (parentIdCol typeCol : PrimCol Nat) (keyCol : Col)
    (strCol : Option Col) (i : Nat) : Option (Nat × (String × AttributeValue)) :=
  if parentIdCol.isNullAt i then none
  else
    match parentIdCol.valueAt i with
    | .error _ => none
    | .ok resourceId =>
      match extractDictKey8Str keyCol i with
      | .error _ => none
      | .ok none => none
      | .ok (some key) =>
        match typeCol.valueAt i with
        | .error _ => none
        | .ok attrType =>
          match resMapValue strCol attrType i with
          | .error _ => none
          | .ok none => none
          | .ok (some v) => some (resourceId, (key, v))

/-- All `(key, value)` pairs the resource-attribute rows `rows` append to the
map entry of resource id `q`, in scan order. -/
def collectRes (parentIdCol typeCol : PrimCol Nat) (keyCol : Col)
    (strCol : Option Col) (rows : List Nat) (q : Nat) :
    List (String × AttributeValue) :=
  rows.filterMap fun i =>
    match resRowContrib parentIdCol typeCol keyCol strCol i with
    | some (p, kv) => if p = q then some kv else none
    | none => none

/-- Applying one row's contribution to the record list (the push performed by
a non-skipped row). -/
def applyContrib (recs : List LogRecordData) :
    Option (Nat × LogAttribute) → List LogRecordData
  | none => recs
  | some (p, a) =>
    match recs[p]? with
    | some r => recs.set p { r with attributes := r.attributes ++ [a] }
    | none => recs

/-- Applying one row's contribution to the resource map (the append performed
by a non-skipped row). -/
def applyResContrib (m : ResAttrsMap) :
    Option (Nat × (String × AttributeValue)) → ResAttrsMap
  | none => m
  | some (rid, kv) => fun q => if q = rid then m q ++ [kv] else m q

/-- The required columns of an attribute batch (`parent_id` as `UInt16Array`,
`key`, `type` as `UInt8Array`), exactly the ones whose absence or wrong layout
makes the attach functions return `Result::Err`. -/
def attrColsOf (b : RecordBatch) : Option (PrimCol Nat × Col × PrimCol Nat) :=
  match (b.columnByName "parent_id").map Col.asU16,
        b.columnByName "key",
        (b.columnByName "type").map Col.asU8 with
  | some (some pc), some kc, some (some tc) => some (pc, kc, tc)
  | _, _, _ => none

/-- The log attributes attached to record `j` by a log-attribute batch, as a
closed function of the batch. -/
def collectedLogAttrsB (b : RecordBatch) (nrecs : Nat) (j : Nat) :
    List LogAttribute :=
  match attrColsOf b with
  | none => []
  | some (pc, kc, tc) =>
    collectLog pc tc kc (b.columnByName "str") (b.columnByName "int")
      nrecs (List.range b.nrows) j

/-- The map entry of resource id `q` built from a resource-attribute batch, as
a closed function of the batch. -/
def resMapSpecB (b : RecordBatch) (q : Nat) : List (String × AttributeValue) :=
  match attrColsOf b with
  | none => []
  | some (pc, kc, tc) =>
    collectRes pc tc kc (b.columnByName "str") (List.range b.nrows) q

/-- What the resource fan-out loop starting at enumeration index `idx` appends
to record `j`'s attribute list. -/
def resAddition (m : ResAttrsMap) : Nat → List (Option Nat) → Nat → List LogAttribute
  | _, [], _ => []
  | idx, ro :: rest, j =>
    (if j = idx then
       (match ro with
        | none => []
        | some rid => (m rid).map fun kv => { key := kv.1, value := kv.2 })
     else []) ++ resAddition m (idx + 1) rest j

/-- Total version of `resourceIdAt` (a panicking read counts as no resolved
id; unreachable on a well-formed batch). -/
def resourceIdTotal (c : Col) (i : Nat) : Option Nat :=
  match c.asStruct with
  | none => none
  | some (nulls, fields) =>
    if nulls.getD i false then none
    else
      match (structField fields "id").bind Col.asU16 with
      | none => none
      | some idCol =>
        if idCol.isNullAt i then none
        else
          match idCol.vals[i]? with
          | some v => some v
          | none => none

/-- The resource id resolved for primary-table row `j` (`none` when the
`resource` column is absent). -/
def resourceIdSpec (lb : RecordBatch) (j : Nat) : Option Nat :=
  match lb.columnByName "resource" with
  | none => none
  | some resCol => resourceIdTotal resCol j

/-- The log-attribute part of record `j`'s final attribute list. -/
def logAttrsPart (input : OtapArrowRecords) (nrecs : Nat) (j : Nat) :
    List LogAttribute :=
  match input.logAttrs with
  | none => []
  | some ab => collectedLogAttrsB ab nrecs j

/-- The resource-attribute part of record `j`'s final attribute list. -/
def resAttrsPart (input : OtapArrowRecords) (lb : RecordBatch) (j : Nat) :
    List LogAttribute :=
  match input.resourceAttrs with
  | none => []
  | some rb =>
    match resourceIdSpec lb j with
    | none => []
    | some rid => (resMapSpecB rb rid).map fun kv => { key := kv.1, value := kv.2 }

/-! ## Concrete instances used by the theorems below -/

/-- A log record with every optional field absent, as produced from a
primary-table row with no resolvable columns. -/
def emptyLogRecord : LogRecordData :=
  { time_unix_nano := none
    observed_time_unix_nano := none
    severity_number := none
    severity_text := none
    body := none
    attributes := []
    trace_id := []
    span_id := []
    flags := none
    event_name := none }

/-- A one-row primary table with no columns at all. -/
def lbOneRow : RecordBatch := { nrows := 1, cols := [] }

/-- A present log-attribute batch with no columns (so no `parent_id`). -/
def abNoCols : RecordBatch := { nrows := 1, cols := [] }

/-- Input whose log-attribute table lacks the `parent_id` column. -/
def inputMissingParentId : OtapArrowRecords :=
  { logs := some lbOneRow, logAttrs := some abNoCols, resourceAttrs := none }

/-- A log-attribute batch whose `key` column is present but of the wrong
physical layout (`UInt16Array` instead of a dictionary). -/
def abWrongKeyLayout : RecordBatch :=
  { nrows := 1
    cols := [("parent_id", .u16 { vals := [0], nulls := [false] }),
             ("key", .u16 { vals := [0], nulls := [false] }),
             ("type", .u8 { vals := [1], nulls := [false] })] }

/-- Input whose log-attribute table has a wrongly-typed `key` column. -/
def inputWrongKeyLayout : OtapArrowRecords :=
  { logs := some lbOneRow, logAttrs := some abWrongKeyLayout, resourceAttrs := none }

/-- A dictionary column whose single key index (5) is out of range of its
one-element values array. -/
def oobDict : DictCol :=
  { keys := { vals := [5], nulls := [false] }, values := .strs ["a"] }

/-- An attribute batch with one row of type tag 2 (int) and a well-formed
`int` value column. -/
def tag2AttrBatch : RecordBatch :=
  { nrows := 1
    cols := [("parent_id", .u16 { vals := [0], nulls := [false] }),
             ("key", .dict8 { keys := { vals := [0], nulls := [false] },
                              values := .strs ["k"] }),
             ("type", .u8 { vals := [2], nulls := [false] }),
             ("int", .dict16 { keys := { vals := [0], nulls := [false] },
                               values := .i64s [42] })] }

/-- Input with a one-row primary table and no attribute tables. -/
def inputOneEmptyRow : OtapArrowRecords :=
  { logs := some lbOneRow, logAttrs := none, resourceAttrs := none }

/-- A concrete encoded batch. -/
def batchL : EncodedBatch := { event_name := "Log", data := [0] }

/-- An environment whose encoder yields one batch and whose uploader always
fails. -/
def failUploadEnv : Env :=
  { encode := fun _ => .ok [batchL], upload := fun _ => .error "upload refused" }

/-- An environment whose encoder yields one batch and whose uploader always
succeeds. -/
def okEnv : Env :=
  { encode := fun _ => .ok [batchL], upload := fun _ => .ok () }

/-- All-zero metric counters. -/
def zeroMetrics : ExporterPDataMetrics :=
  { logs_consumed := 0, logs_exported := 0, logs_failed := 0 }

/-- The initial exporter state: empty buffer, zero counters. -/
def initState : ExporterState := { buffer := [], metrics := zeroMetrics }

/-- A state holding one buffered record and some accumulated counters. -/
def bufferedState : ExporterState :=
  { buffer := [emptyLogRecord]
    metrics := { logs_consumed := 5, logs_exported := 2, logs_failed := 3 } }

/-- A two-row primary table whose `resource` column resolves ids 0 and 1. -/
def lbW : RecordBatch :=
  { nrows := 2
    cols := [("resource",
              .strct [false, false]
                [("id", .u16 { vals := [0, 1], nulls := [false, false] })])] }

/-- A three-row log-attribute batch: row 0 targets record 0 with ("a","x");
row 1 has an out-of-range `parent_id` 5; row 2 has a null `parent_id`. -/
def abW : RecordBatch :=
  { nrows := 3
    cols := [("parent_id", .u16 { vals := [0, 5, 0], nulls := [false, false, true] }),
             ("key", .dict8 { keys := { vals := [0, 1, 0], nulls := [false, false, false] },
                              values := .strs ["a", "b"] }),
             ("type", .u8 { vals := [1, 1, 1], nulls := [false, false, false] }),
             ("str", .dict16 { keys := { vals := [0, 1, 0], nulls := [false, false, false] },
                               values := .strs ["x", "y"] })] }

/-- A two-row resource-attribute batch: row 0 keys resource id 0 with
("r","z"); row 1 keys resource id 9, which no record resolves to. -/
def rbW : RecordBatch :=
  { nrows := 2
    cols := [("parent_id", .u16 { vals := [0, 9], nulls := [false, false] }),
             ("key", .dict8 { keys := { vals := [0, 1], nulls := [false, false] },
                              values := .strs ["r", "q"] }),
             ("type", .u8 { vals := [1, 1], nulls := [false, false] }),
             ("str", .dict16 { keys := { vals := [0, 1], nulls := [false, false] },
                               values := .strs ["z", "w"] })] }

/-- The full witness input: two primary rows, both attribute tables present. -/
def inputW : OtapArrowRecords :=
  { logs := some lbW, logAttrs := some abW, resourceAttrs := some rbW }

/-- The record list produced from `inputW`: record 0 carries its log attribute
followed by its resource attribute, record 1 carries none. -/
def recsW : List LogRecordData :=
  [{ emptyLogRecord with
      attributes := [{ key := "a", value := .str "x" },
                     { key := "r", value := .str "z" }] },
   emptyLogRecord]

/-- An upload function failing on attempts 1..3 and succeeding from attempt 4. -/
def succeedOn4 : Nat → Bool := fun n => Nat.ble 4 n

/-- An upload function succeeding exactly on attempt 3. -/
def succeedOn3 : Nat → Bool := fun n => n == 3

/-- The default retry configuration with retries disabled. -/
def disabledRetryConfig : BatchRetryConfig :=
  { BatchRetryConfig.default with enabled := false }

/-! ## Lemmas: the attach loops compute the row contributions -/

theorem recWithSameAttrs (r : LogRecordData) : { r with attributes := r.attributes } = r :=
  rfl

theorem pushAttrAtE_ok {recs : List LogRecordData} {p : Nat} {a : LogAttribute}
    {recs' : List LogRecordData} (h : pushAttrAtE recs p a = .ok recs') :
    ∃ r, recs[p]? = some r ∧
      recs' = recs.set p { r with attributes := r.attributes ++ [a] } := by
  rcases hg : recs[p]? with _ | r
  · simp [pushAttrAtE, hg] at h
  · simp [pushAttrAtE, hg] at h
    exact ⟨r, rfl, h.symm⟩

theorem processAttrRow_ok {pc tc : PrimCol Nat} {kc : Col} {sc ic : Option Col}
    {recs : List LogRecordData} {i : Nat} {recs' : List LogRecordData}
    (h : processAttrRow pc tc kc sc ic recs i = .ok recs') :
    recs' = applyContrib recs (logRowContrib pc tc kc sc ic recs.length i) := by
  unfold processAttrRow at h
  unfold logRowContrib
  split at h
  · cases h
    simp_all [applyContrib]
  next hnull =>
    split at h
    · cases h
    · split at h
      · cases h
        simp_all [applyContrib]
      next hge =>
        split at h
        · cases h
        · cases h
          simp_all [applyContrib]
        · split at h
          · cases h
          · split at h
            · cases h
            · cases h
              simp_all [applyContrib]
            · rcases pushAttrAtE_ok h with ⟨r, hr, hset⟩
              subst hset
              simp [applyContrib, if_neg hge, if_neg hnull, hr]

theorem applyContrib_length (recs : List LogRecordData)
    (o : Option (Nat × LogAttribute)) : (applyContrib recs o).length = recs.length := by
  rcases o with _ | ⟨p, a⟩
  · rfl
  · rcases hg : recs[p]? with _ | r <;> simp [applyContrib, hg]

theorem logRowContrib_some_lt {pc tc : PrimCol Nat} {kc : Col} {sc ic : Option Col}
    {nrecs i : Nat} {p : Nat} {a : LogAttribute}
    (h : logRowContrib pc tc kc sc ic nrecs i = some (p, a)) : p < nrecs := by
  unfold logRowContrib at h
  split at h
  · cases h
  · split at h
    · cases h
    · split at h
      · cases h
      next hge =>
        split at h
        · cases h
        · cases h
        · split at h
          · cases h
          · split at h
            · cases h
            · cases h
            · cases h
              omega

theorem attachAttrRows_ok {pc tc : PrimCol Nat} {kc : Col} {sc ic : Option Col}
    (rows : List Nat) :
    ∀ (recs recs' : List LogRecordData),
    attachAttrRows pc tc kc sc ic rows recs = .ok recs' →
    recs'.length = recs.length ∧
    ∀ j : Nat, recs'[j]? = (recs[j]?).map fun (r : LogRecordData) =>
      { r with attributes :=
          r.attributes ++ collectLog pc tc kc sc ic recs.length rows j } := by
  induction rows with
  | nil =>
    intro recs recs' h
    simp only [attachAttrRows] at h
    cases h
    refine ⟨rfl, fun j => ?_⟩
    simp [collectLog]
  | cons i rest ih =>
    intro recs recs' h
    simp only [attachAttrRows] at h
    rcases hp : processAttrRow pc tc kc sc ic recs i with e | recs1
    · rw [hp] at h; cases h
    · rw [hp] at h
      have hcontrib := processAttrRow_ok hp
      have hlen1 : recs1.length = recs.length := by
        rw [hcontrib]; exact applyContrib_length recs _
      obtain ⟨hlen, hchar⟩ := ih recs1 recs' h
      refine ⟨by rw [hlen, hlen1], fun j => ?_⟩
      rw [hchar j, hlen1]
      rcases hco : logRowContrib pc tc kc sc ic recs.length i with _ | ⟨p, a⟩
      · rw [hcontrib, hco]
        simp [applyContrib, collectLog, List.filterMap_cons, hco]
      · have hplt : p < recs.length := logRowContrib_some_lt hco
        rcases hg : recs[p]? with _ | rp
        · rw [List.getElem?_eq_getElem hplt] at hg; cases hg
        · have hrecs1 : recs1 = recs.set p { rp with attributes := rp.attributes ++ [a] } := by
            rw [hcontrib, hco]; simp [applyContrib, hg]
          by_cases hj : j = p
          · subst hj
            rw [hrecs1, hg]
            have hset : (recs.set j { rp with attributes := rp.attributes ++ [a] })[j]? =
                some { rp with attributes := rp.attributes ++ [a] } := by
              simp [List.getElem?_set_self, hplt]
            rw [hset]
            simp [collectLog, List.filterMap_cons, hco]
          · rw [hrecs1]
            have hset : (recs.set p { rp with attributes := rp.attributes ++ [a] })[j]? =
                recs[j]? := by
              rw [List.getElem?_set_ne (fun hpj => hj hpj.symm)]
            rw [hset]
            have hpj : ¬p = j := fun hpj => hj hpj.symm
            simp [collectLog, List.filterMap_cons, hco, hpj]

theorem processResAttrRow_ok {pc tc : PrimCol Nat} {kc : Col} {sc : Option Col}
    {m m' : ResAttrsMap} {i : Nat} (h : processResAttrRow pc tc kc sc m i = .ok m') :
    m' = applyResContrib m (resRowContrib pc tc kc sc i) := by
  unfold processResAttrRow at h
  unfold resRowContrib
  split at h
  · cases h
    simp_all [applyResContrib]
  next hnull =>
    split at h
    · cases h
    · split at h
      · cases h
      · cases h
        simp_all [applyResContrib]
      · split at h
        · cases h
        · split at h
          · cases h
          · cases h
            simp_all [applyResContrib]
          · cases h
            simp [applyResContrib, if_neg hnull]

theorem buildResMap_ok {pc tc : PrimCol Nat} {kc : Col} {sc : Option Col}
    (rows : List Nat) :
    ∀ (m m' : ResAttrsMap), buildResMap pc tc kc sc rows m = .ok m' →
    ∀ q, m' q = m q ++ collectRes pc tc kc sc rows q := by
  induction rows with
  | nil =>
    intro m m' h q
    simp only [buildResMap] at h
    cases h
    simp [collectRes]
  | cons i rest ih =>
    intro m m' h q
    simp only [buildResMap] at h
    rcases hp : processResAttrRow pc tc kc sc m i with e | m1
    · rw [hp] at h; cases h
    · rw [hp] at h
      have hc := processResAttrRow_ok hp
      rw [ih m1 m' h q, hc]
      rcases hco : resRowContrib pc tc kc sc i with _ | ⟨rid, kv⟩
      · simp [applyResContrib, collectRes, List.filterMap_cons, hco]
      · by_cases hq : q = rid
        · subst hq
          simp [applyResContrib, collectRes, List.filterMap_cons, hco]
        · have hrq : ¬rid = q := fun hh => hq hh.symm
          simp [applyResContrib, collectRes, List.filterMap_cons, hco, hq, hrq]

theorem pushKVs_ok {logIdx : Nat} (kvs : List (String × AttributeValue)) :
    ∀ (recs recs' : List LogRecordData), pushKVs logIdx kvs recs = .ok recs' →
    recs'.length = recs.length ∧
    ∀ j : Nat, recs'[j]? = (recs[j]?).map fun (r : LogRecordData) =>
      if j = logIdx then
        { r with attributes :=
            r.attributes ++ kvs.map fun kv => { key := kv.1, value := kv.2 } }
      else r := by
  induction kvs with
  | nil =>
    intro recs recs' h
    simp only [pushKVs] at h
    cases h
    refine ⟨rfl, fun j => ?_⟩
    cases hg : recs[j]? <;> by_cases hj : j = logIdx <;> simp [hg, hj]
  | cons kv rest ih =>
    intro recs recs' h
    simp only [pushKVs] at h
    rcases hp : pushAttrAtE recs logIdx { key := kv.1, value := kv.2 } with e | recs1
    · rw [hp] at h; cases h
    · rw [hp] at h
      rcases pushAttrAtE_ok hp with ⟨r0, hr0, hrecs1⟩
      obtain ⟨hlen, hchar⟩ := ih recs1 recs' h
      have hlen1 : recs1.length = recs.length := by rw [hrecs1]; simp
      have hlt : logIdx < recs.length := by
        rcases List.getElem?_eq_some.mp hr0 with ⟨hl, _⟩
        exact hl
      refine ⟨by rw [hlen, hlen1], fun j => ?_⟩
      rw [hchar j]
      by_cases hj : j = logIdx
      · subst hj
        have h1 : recs1[j]? =
            some { r0 with attributes := r0.attributes ++ [{ key := kv.1, value := kv.2 }] } := by
          rw [hrecs1]
          simp [List.getElem?_set_self, hlt]
        rw [h1, hr0]
        simp
      · have h1 : recs1[j]? = recs[j]? := by
          rw [hrecs1, List.getElem?_set_ne (fun hh => hj hh.symm)]
        rw [h1]
        cases hg : recs[j]? <;> simp [hg, hj]

theorem attachResRowsGo_ok {m : ResAttrsMap} (rids : List (Option Nat)) :
    ∀ (idx : Nat) (recs recs' : List LogRecordData),
    attachResRowsGo m idx rids recs = .ok recs' →
    recs'.length = recs.length ∧
    ∀ j : Nat, recs'[j]? = (recs[j]?).map fun (r : LogRecordData) =>
      { r with attributes := r.attributes ++ resAddition m idx rids j } := by
  induction rids with
  | nil =>
    intro idx recs recs' h
    simp only [attachResRowsGo] at h
    cases h
    refine ⟨rfl, fun j => ?_⟩
    cases hg : recs[j]? <;> simp [hg, resAddition]
  | cons ro rest ih =>
    intro idx recs recs' h
    simp only [attachResRowsGo] at h
    rcases ro with _ | rid
    · have h2 : attachResRowsGo m (idx + 1) rest recs = .ok recs' := h
      obtain ⟨hlen, hchar⟩ := ih (idx + 1) recs recs' h2
      refine ⟨hlen, fun j => ?_⟩
      rw [hchar j]
      cases hg : recs[j]? <;> simp [hg, resAddition]
    · have h2 : (match pushKVs idx (m rid) recs with
          | Except.error e => Except.error e
          | Except.ok recs1 => attachResRowsGo m (idx + 1) rest recs1) = .ok recs' := h
      rcases hp : pushKVs idx (m rid) recs with e | recs1
      · rw [hp] at h2; cases h2
      · rw [hp] at h2
        obtain ⟨hlen1, hchar1⟩ := pushKVs_ok (m rid) recs recs1 hp
        obtain ⟨hlen, hchar⟩ := ih (idx + 1) recs1 recs' h2
        refine ⟨by rw [hlen, hlen1], fun j => ?_⟩
        rw [hchar j, hchar1 j]
        cases hg : recs[j]? with
        | none => simp [hg]
        | some r =>
          by_cases hj : j = idx
          · subst hj
            simp [hg, resAddition]
          · simp [hg, hj, resAddition]

theorem resAddition_lt {m : ResAttrsMap} (rids : List (Option Nat)) :
    ∀ (idx j : Nat), j < idx → resAddition m idx rids j = [] := by
  induction rids with
  | nil => intro idx j _; rfl
  | cons ro rest ih =>
    intro idx j hj
    have hne : ¬j = idx := by omega
    simp [resAddition, hne]
    exact ih (idx + 1) j (by omega)

theorem resAddition_add {m : ResAttrsMap} (rids : List (Option Nat)) :
    ∀ (idx j : Nat), resAddition m idx rids (idx + j) =
      (match rids[j]? with
       | some (some rid) => (m rid).map fun kv => { key := kv.1, value := kv.2 }
       | _ => []) := by
  induction rids with
  | nil => intro idx j; simp [resAddition]
  | cons ro rest ih =>
    intro idx j
    cases j with
    | zero =>
      have htail : resAddition m (idx + 1) rest idx = [] :=
        resAddition_lt rest (idx + 1) idx (by omega)
      cases ro <;> simp [resAddition, htail]
    | succ k =>
      have hidx : idx + (k + 1) = (idx + 1) + k := by omega
      have hne : ¬(idx + 1) + k = idx := by omega
      rw [hidx]
      have := ih (idx + 1) k
      simp only [resAddition, hne, if_false]
      simpa using this

theorem resAddition_zero {m : ResAttrsMap} (rids : List (Option Nat)) (j : Nat) :
    resAddition m 0 rids j =
      (match rids[j]? with
       | some (some rid) => (m rid).map fun kv => { key := kv.1, value := kv.2 }
       | _ => []) := by
  have := @resAddition_add m rids 0 j
  simpa using this

/-! ## Lemmas: primary-row building and resource-id extraction -/

theorem buildRow_attrs {pcols : PrimaryCols} {i : Nat} {r : LogRecordData}
    (h : buildRow pcols i = .ok r) : r.attributes = [] := by
  unfold buildRow at h
  split at h
  · cases h
  split at h
  · cases h
  split at h
  · cases h
  split at h
  · cases h
  split at h
  · cases h
  split at h
  · cases h
  split at h
  · cases h
  split at h
  · cases h
  cases h
  rfl

theorem buildRows_ok {pcols : PrimaryCols} (rows : List Nat) :
    ∀ recs, buildRows pcols rows = .ok recs →
    recs.length = rows.length ∧
    ∀ (k i : Nat), rows[k]? = some i →
      ∃ r, buildRow pcols i = .ok r ∧ recs[k]? = some r := by
  induction rows with
  | nil =>
    intro recs h
    simp only [buildRows] at h
    cases h
    exact ⟨rfl, fun k i hk => by simp at hk⟩
  | cons i rest ih =>
    intro recs h
    simp only [buildRows] at h
    rcases hr : buildRow pcols i with e | r
    · rw [hr] at h; cases h
    · rw [hr] at h
      rcases hrs : buildRows pcols rest with e | rs
      · rw [hrs] at h; cases h
      · rw [hrs] at h
        cases h
        obtain ⟨hlen, hchar⟩ := ih rs hrs
        refine ⟨by simp [hlen], fun k j hk => ?_⟩
        cases k with
        | zero =>
          simp at hk
          subst hk
          exact ⟨r, hr, by simp⟩
        | succ k2 =>
          simp only [List.getElem?_cons_succ] at hk ⊢
          exact hchar k2 j hk

theorem valueAt_ok_iff {α : Type} {c : PrimCol α} {i : Nat} {v : α} :
    c.valueAt i = .ok v ↔ c.vals[i]? = some v := by
  unfold PrimCol.valueAt
  rcases hg : c.vals[i]? with _ | w <;> simp [hg]

theorem valueAt_no_err {α : Type} {c : PrimCol α} {i : Nat} {e : Fail}
    (h : c.valueAt i = .error e) : e = .panic := by
  unfold PrimCol.valueAt at h
  rcases hg : c.vals[i]? with _ | v
  · rw [hg] at h; cases h; rfl
  · rw [hg] at h; cases h

theorem resourceIdAt_ok {c : Col} {i : Nat} {v : Option Nat}
    (h : resourceIdAt c i = .ok v) : v = resourceIdTotal c i := by
  unfold resourceIdAt at h
  unfold resourceIdTotal
  split at h
  · cases h; rfl
  · split at h
    next hnull => cases h; simp_all
    next hnull =>
      split at h
      · cases h; simp_all
      · split at h
        next hidnull => cases h; simp_all
        next hidnull =>
          split at h
          · cases h
          next v2 hval =>
            cases h
            rw [valueAt_ok_iff] at hval
            simp_all

theorem resIdsRows_ok {c : Col} (rows : List Nat) :
    ∀ vs, resIdsRows c rows = .ok vs →
    vs.length = rows.length ∧
    ∀ (k i : Nat), rows[k]? = some i → vs[k]? = some (resourceIdTotal c i) := by
  induction rows with
  | nil =>
    intro vs h
    simp only [resIdsRows] at h
    cases h
    exact ⟨rfl, fun k i hk => by simp at hk⟩
  | cons i rest ih =>
    intro vs h
    simp only [resIdsRows] at h
    rcases hr : resourceIdAt c i with e | v
    · rw [hr] at h; cases h
    · rw [hr] at h
      rcases hrs : resIdsRows c rest with e | ws
      · rw [hrs] at h; cases h
      · rw [hrs] at h
        cases h
        obtain ⟨hlen, hchar⟩ := ih ws hrs
        refine ⟨by simp [hlen], fun k j hk => ?_⟩
        cases k with
        | zero =>
          simp at hk
          subst hk
          simp [resourceIdAt_ok hr]
        | succ k2 =>
          simp only [List.getElem?_cons_succ] at hk ⊢
          exact hchar k2 j hk

/-! ## Lemmas: classification of the attach functions' failures -/

theorem extractDictKey8Str_no_err {kc : Col} {i : Nat} {e : Fail}
    (h : extractDictKey8Str kc i = .error e) : e = .panic := by
  unfold extractDictKey8Str at h
  split at h
  · cases h
  · split at h
    · cases h
    · split at h
      next e2 herr => cases h; exact valueAt_no_err herr
      · split at h
        · cases h
        · split at h
          · cases h
          · cases h; rfl

theorem extractStrValue_no_err {sc : Option Col} {i : Nat} {e : Fail}
    (h : extractStrValue sc i = .error e) : e = .panic := by
  unfold extractStrValue at h
  split at h
  · cases h
  · split at h
    · cases h
    · split at h
      next e2 herr => cases h; exact valueAt_no_err herr
      · split at h
        · cases h
        · split at h
          · cases h
          · cases h; rfl

theorem extractIntValue_no_err {ic : Option Col} {i : Nat} {e : Fail}
    (h : extractIntValue ic i = .error e) : e = .panic := by
  unfold extractIntValue at h
  split at h
  · cases h
  · split at h
    · cases h
    · split at h
      next e2 herr => cases h; exact valueAt_no_err herr
      · split at h
        · cases h
        · split at h
          · cases h
          · cases h; rfl

theorem pushAttrAtE_no_err {recs : List LogRecordData} {p : Nat} {a : LogAttribute}
    {e : Fail} (h : pushAttrAtE recs p a = .error e) : e = .panic := by
  unfold pushAttrAtE at h
  rcases hg : recs[p]? with _ | r
  · rw [hg] at h; cases h; rfl
  · rw [hg] at h; cases h

theorem processAttrRow_no_err {pc tc : PrimCol Nat} {kc : Col} {sc ic : Option Col}
    {recs : List LogRecordData} {i : Nat} {e : Fail}
    (h : processAttrRow pc tc kc sc ic recs i = .error e) : e = .panic := by
  unfold processAttrRow at h
  split at h
  · cases h
  · split at h
    next e2 herr => cases h; exact valueAt_no_err herr
    · split at h
      · cases h
      · split at h
        next e2 herr => cases h; exact extractDictKey8Str_no_err herr
        · cases h
        · split at h
          next e2 herr => cases h; exact valueAt_no_err herr
          next attrType htype =>
            split at h
            next e2 hval =>
              cases h
              rcases hat : attrType with _ | n
              · rw [hat] at hval; cases hval
              · rcases n with _ | n2
                · rw [hat] at hval
                  exact extractStrValue_no_err hval
                · rcases n2 with _ | n3
                  · rw [hat] at hval
                    exact extractIntValue_no_err hval
                  · rw [hat] at hval; cases hval
            · cases h
            · exact pushAttrAtE_no_err h

theorem attachAttrRows_no_err {pc tc : PrimCol Nat} {kc : Col} {sc ic : Option Col}
    (rows : List Nat) :
    ∀ (recs : List LogRecordData) (e : Fail),
    attachAttrRows pc tc kc sc ic rows recs = .error e → e = .panic := by
  induction rows with
  | nil => intro recs e h; simp only [attachAttrRows] at h; cases h
  | cons i rest ih =>
    intro recs e h
    simp only [attachAttrRows] at h
    rcases hp : processAttrRow pc tc kc sc ic recs i with e2 | recs1
    · rw [hp] at h; cases h; exact processAttrRow_no_err hp
    · rw [hp] at h
      exact ih recs1 e h

theorem resMapValue_no_err {sc : Option Col} {t i : Nat} {e : Fail}
    (h : resMapValue sc t i = .error e) : e = .panic := by
  unfold resMapValue at h
  split at h
  · exact extractStrValue_no_err h
  · cases h

theorem processResAttrRow_no_err {pc tc : PrimCol Nat} {kc : Col} {sc : Option Col}
    {m : ResAttrsMap} {i : Nat} {e : Fail}
    (h : processResAttrRow pc tc kc sc m i = .error e) : e = .panic := by
  unfold processResAttrRow at h
  split at h
  · cases h
  · split at h
    next e2 herr => cases h; exact valueAt_no_err herr
    · split at h
      next e2 herr => cases h; exact extractDictKey8Str_no_err herr
      · cases h
      · split at h
        next e2 herr => cases h; exact valueAt_no_err herr
        · split at h
          next e2 hval => cases h; exact resMapValue_no_err hval
          · cases h
          · cases h

theorem buildResMap_no_err {pc tc : PrimCol Nat} {kc : Col} {sc : Option Col}
    (rows : List Nat) :
    ∀ (m : ResAttrsMap) (e : Fail),
    buildResMap pc tc kc sc rows m = .error e → e = .panic := by
  induction rows with
  | nil => intro m e h; simp only [buildResMap] at h; cases h
  | cons i rest ih =>
    intro m e h
    simp only [buildResMap] at h
    rcases hp : processResAttrRow pc tc kc sc m i with e2 | m1
    · rw [hp] at h; cases h; exact processResAttrRow_no_err hp
    · rw [hp] at h
      exact ih m1 e h

theorem pushKVs_no_err {logIdx : Nat} (kvs : List (String × AttributeValue)) :
    ∀ (recs : List LogRecordData) (e : Fail),
    pushKVs logIdx kvs recs = .error e → e = .panic := by
  induction kvs with
  | nil => intro recs e h; simp only [pushKVs] at h; cases h
  | cons kv rest ih =>
    intro recs e h
    simp only [pushKVs] at h
    rcases hp : pushAttrAtE recs logIdx { key := kv.1, value := kv.2 } with e2 | recs1
    · rw [hp] at h; cases h; exact pushAttrAtE_no_err hp
    · rw [hp] at h
      exact ih recs1 e h

theorem attachResRowsGo_no_err {m : ResAttrsMap} (rids : List (Option Nat)) :
    ∀ (idx : Nat) (recs : List LogRecordData) (e : Fail),
    attachResRowsGo m idx rids recs = .error e → e = .panic := by
  induction rids with
  | nil => intro idx recs e h; simp only [attachResRowsGo] at h; cases h
  | cons ro rest ih =>
    intro idx recs e h
    simp only [attachResRowsGo] at h
    rcases ro with _ | rid
    · exact ih (idx + 1) recs e h
    · have h2 : (match pushKVs idx (m rid) recs with
          | Except.error e => Except.error e
          | Except.ok recs1 => attachResRowsGo m (idx + 1) rest recs1) = .error e := h
      rcases hp : pushKVs idx (m rid) recs with e2 | recs1
      · rw [hp] at h2; cases h2; exact pushKVs_no_err (m rid) recs e hp
      · rw [hp] at h2
        exact ih (idx + 1) recs1 e h2

/-! ## Lemmas: inverting the attach entry points -/

theorem extract_attrs_ok_inv {recs : List LogRecordData} {b : RecordBatch}
    {recs' : List LogRecordData} (h : extract_and_attach_attributes recs b = .ok recs') :
    ∃ pc kc tc, attrColsOf b = some (pc, kc, tc) ∧
      attachAttrRows pc tc kc (b.columnByName "str") (b.columnByName "int")
        (List.range b.nrows) recs = .ok recs' := by
  unfold extract_and_attach_attributes at h
  split at h
  · cases h
  · cases h
  next pc hpc =>
    split at h
    · cases h
    next kc hkc =>
      split at h
      · cases h
      · cases h
      next tc htc =>
        exact ⟨pc, kc, tc, by unfold attrColsOf; rw [hpc, hkc, htc], h⟩

theorem extract_res_ok_inv {recs : List LogRecordData} {b : RecordBatch}
    {rids : List (Option Nat)} {recs' : List LogRecordData}
    (h : extract_and_attach_resource_attributes recs b rids = .ok recs') :
    ∃ pc kc tc m, attrColsOf b = some (pc, kc, tc) ∧
      buildResMap pc tc kc (b.columnByName "str") (List.range b.nrows)
        (fun _ => []) = .ok m ∧
      attachResRowsGo m 0 rids recs = .ok recs' := by
  unfold extract_and_attach_resource_attributes at h
  split at h
  · cases h
  · cases h
  next pc hpc =>
    split at h
    · cases h
    next kc hkc =>
      split at h
      · cases h
      · cases h
      next tc htc =>
        split at h
        · cases h
        next m hm =>
          exact ⟨pc, kc, tc, m, by unfold attrColsOf; rw [hpc, hkc, htc], hm, h⟩

/-! ## The master characterization of convert_otap_to_log_records -/

theorem convert_char {input : OtapArrowRecords} {lb : RecordBatch}
    {recs : List LogRecordData}
    (hlogs : input.logs = some lb)
    (h : convert_otap_to_log_records input = .ok recs) :
    recs.length = lb.nrows ∧
    ∀ (j : Nat) (r : LogRecordData), recs[j]? = some r →
      ∃ r0, buildRow (primaryCols lb) j = .ok r0 ∧
        r = { r0 with attributes :=
                logAttrsPart input lb.nrows j ++ resAttrsPart input lb j } := by
  unfold convert_otap_to_log_records at h
  split at h
  · cases h
  next lb2 hlogs2 =>
    rw [hlogs] at hlogs2
    cases hlogs2
    split at h
    · cases h
    next recs0 hb =>
      obtain ⟨hlen0, hchar0⟩ := buildRows_ok _ recs0 hb
      rw [List.length_range] at hlen0
      split at h
      · cases h
      next recs1 hA =>
        have hstage1 : recs1.length = recs0.length ∧
            ∀ j : Nat, recs1[j]? = (recs0[j]?).map fun (r : LogRecordData) =>
              { r with attributes := r.attributes ++ logAttrsPart input recs0.length j } := by
          rcases hla : input.logAttrs with _ | ab
          · rw [hla] at hA
            cases hA
            refine ⟨rfl, fun j => ?_⟩
            cases hg : recs0[j]? <;> simp [hg, logAttrsPart, hla]
          · rw [hla] at hA
            obtain ⟨pc, kc, tc, hcols, hrows⟩ := extract_attrs_ok_inv hA
            obtain ⟨hl, hc⟩ := attachAttrRows_ok _ recs0 recs1 hrows
            refine ⟨hl, fun j => ?_⟩
            rw [hc j]
            simp [logAttrsPart, hla, collectedLogAttrsB, hcols]
        split at h
        · cases h
        next rids hR =>
          have hrids : ∀ j : Nat, j < lb.nrows → rids[j]? = some (resourceIdSpec lb j) := by
            rcases hrc : lb.columnByName "resource" with _ | resCol
            · rw [hrc] at hR
              cases hR
              intro j hj
              simp [resourceIdSpec, hrc, List.getElem?_replicate, hj]
            · rw [hrc] at hR
              obtain ⟨hlenR, hcharR⟩ := resIdsRows_ok _ rids hR
              intro j hj
              have hrange : (List.range lb.nrows)[j]? = some j := by
                simp [List.getElem?_range, hj]
              rw [hcharR j j hrange]
              simp [resourceIdSpec, hrc]
          split at h
          · cases h
          next recs2 hB =>
            cases h
            have hstage2 : recs.length = recs1.length ∧
              ∀ j : Nat, j < lb.nrows → recs[j]? = (recs1[j]?).map fun (r : LogRecordData) =>
                { r with attributes := r.attributes ++ resAttrsPart input lb j } := by
              rcases hra : input.resourceAttrs with _ | rb
              · rw [hra] at hB
                cases hB
                exact ⟨rfl, fun j _ => by
                  cases hg : recs[j]? <;> simp [hg, resAttrsPart, hra]⟩
              · rw [hra] at hB
                obtain ⟨pc, kc, tc, m, hcols, hm, hgo⟩ := extract_res_ok_inv hB
                obtain ⟨hl2, hc2⟩ := attachResRowsGo_ok rids 0 recs1 recs hgo
                refine ⟨hl2, fun j hj => ?_⟩
                rw [hc2 j, resAddition_zero, hrids j hj]
                have hmq : ∀ q, m q = resMapSpecB rb q := by
                  intro q
                  have := buildResMap_ok _ _ m hm q
                  simpa [resMapSpecB, hcols] using this
                rcases hospec : resourceIdSpec lb j with _ | rid
                · simp [resAttrsPart, hra, hospec]
                · simp [resAttrsPart, hra, hospec, hmq]
            obtain ⟨hl1, hc1⟩ := hstage1
            obtain ⟨hl2, hc2⟩ := hstage2
            constructor
            · rw [hl2, hl1, hlen0]
            · intro j r hr
              have hjlt : j < lb.nrows := by
                rcases List.getElem?_eq_some.mp hr with ⟨hlt, _⟩
                rw [hl2, hl1, hlen0] at hlt
                exact hlt
              have hrange : (List.range lb.nrows)[j]? = some j := by
                simp [List.getElem?_range, hjlt]
              obtain ⟨r0, hr0, hr0g⟩ := hchar0 j j hrange
              refine ⟨r0, hr0, ?_⟩
              have hattrs0 : r0.attributes = [] := buildRow_attrs hr0
              rw [hc2 j hjlt, hc1 j, hr0g] at hr
              simp only [Option.map_some'] at hr
              cases hr
              simp [hattrs0, hlen0]

/-! ## Helper lemmas for the claim theorems -/

theorem attrColsOf_some_inv {b : RecordBatch} {pc : PrimCol Nat} {kc : Col}
    {tc : PrimCol Nat} (h : attrColsOf b = some (pc, kc, tc)) :
    (b.columnByName "parent_id").map Col.asU16 = some (some pc) ∧
    b.columnByName "key" = some kc ∧
    (b.columnByName "type").map Col.asU8 = some (some tc) := by
  unfold attrColsOf at h
  split at h
  next h1 h2 h3 =>
    cases h
    exact ⟨h1, h2, h3⟩
  · cases h

theorem extract_attrs_err_iff (recs : List LogRecordData) (b : RecordBatch) :
    (∃ msg, extract_and_attach_attributes recs b = .error (.err msg)) ↔
    attrColsOf b = none := by
  constructor
  · rintro ⟨msg, hmsg⟩
    by_contra hne
    rcases ho : attrColsOf b with _ | ⟨pc, kc, tc⟩
    · exact hne ho
    · obtain ⟨h1, h2, h3⟩ := attrColsOf_some_inv ho
      have heq : extract_and_attach_attributes recs b =
          attachAttrRows pc tc kc (b.columnByName "str") (b.columnByName "int")
            (List.range b.nrows) recs := by
        unfold extract_and_attach_attributes
        rw [h1, h2, h3]
      rw [heq] at hmsg
      have := attachAttrRows_no_err (List.range b.nrows) recs _ hmsg
      cases this
  · intro ho
    rcases h1 : (b.columnByName "parent_id").map Col.asU16 with _ | op
    · exact ⟨"parent_id column not found", by
        unfold extract_and_attach_attributes; rw [h1]⟩
    · rcases op with _ | pc
      · exact ⟨"parent_id is not UInt16Array", by
          unfold extract_and_attach_attributes; rw [h1]⟩
      · rcases h2 : b.columnByName "key" with _ | kc
        · exact ⟨"key column not found", by
            unfold extract_and_attach_attributes; rw [h1, h2]⟩
        · rcases h3 : (b.columnByName "type").map Col.asU8 with _ | ot
          · exact ⟨"type column not found", by
              unfold extract_and_attach_attributes; rw [h1, h2, h3]⟩
          · rcases ot with _ | tc
            · exact ⟨"type is not UInt8Array", by
                unfold extract_and_attach_attributes; rw [h1, h2, h3]⟩
            · exfalso
              simp [attrColsOf, h1, h2, h3] at ho

theorem extract_res_err_iff (recs : List LogRecordData) (b : RecordBatch)
    (rids : List (Option Nat)) :
    (∃ msg, extract_and_attach_resource_attributes recs b rids = .error (.err msg)) ↔
    attrColsOf b = none := by
  constructor
  · rintro ⟨msg, hmsg⟩
    by_contra hne
    rcases ho : attrColsOf b with _ | ⟨pc, kc, tc⟩
    · exact hne ho
    · obtain ⟨h1, h2, h3⟩ := attrColsOf_some_inv ho
      have heq : extract_and_attach_resource_attributes recs b rids =
          (match buildResMap pc tc kc (b.columnByName "str")
              (List.range b.nrows) (fun _ => []) with
           | Except.error e => Except.error e
           | Except.ok m => attachResRowsGo m 0 rids recs) := by
        unfold extract_and_attach_resource_attributes
        rw [h1, h2, h3]
      rw [heq] at hmsg
      rcases hm : buildResMap pc tc kc (b.columnByName "str")
          (List.range b.nrows) (fun _ => []) with e | m
      · rw [hm] at hmsg
        cases hmsg
        have := buildResMap_no_err (List.range b.nrows) _ _ hm
        cases this
      · rw [hm] at hmsg
        have := attachResRowsGo_no_err rids 0 recs _ hmsg
        cases this
  · intro ho
    rcases h1 : (b.columnByName "parent_id").map Col.asU16 with _ | op
    · exact ⟨"parent_id column not found in ResourceAttrs", by
        unfold extract_and_attach_resource_attributes; rw [h1]⟩
    · rcases op with _ | pc
      · exact ⟨"parent_id is not UInt16Array", by
          unfold extract_and_attach_resource_attributes; rw [h1]⟩
      · rcases h2 : b.columnByName "key" with _ | kc
        · exact ⟨"key column not found in ResourceAttrs", by
            unfold extract_and_attach_resource_attributes; rw [h1, h2]⟩
        · rcases h3 : (b.columnByName "type").map Col.asU8 with _ | ot
          · exact ⟨"type column not found in ResourceAttrs", by
              unfold extract_and_attach_resource_attributes; rw [h1, h2, h3]⟩
          · rcases ot with _ | tc
            · exact ⟨"type is not UInt8Array", by
                unfold extract_and_attach_resource_attributes; rw [h1, h2, h3]⟩
            · exfalso
              simp [attrColsOf, h1, h2, h3] at ho

theorem buildRows_emptyCols (n : Nat) (rows : List Nat) :
    buildRows (primaryCols { nrows := n, cols := [] }) rows =
      .ok (List.replicate rows.length emptyLogRecord) := by
  induction rows with
  | nil => rfl
  | cons i rest ih =>
    have hb : buildRow (primaryCols { nrows := n, cols := [] }) i =
        .ok emptyLogRecord := rfl
    simp only [buildRows, hb, ih, List.length_cons, List.replicate_succ]

theorem convert_emptyCols (n : Nat) :
    convert_otap_to_log_records
        { logs := some { nrows := n, cols := [] }, logAttrs := none,
          resourceAttrs := none } =
      .ok (List.replicate n emptyLogRecord) := by
  have hb := buildRows_emptyCols n (List.range n)
  rw [List.length_range] at hb
  simp [convert_otap_to_log_records, hb, RecordBatch.columnByName]

theorem uploadAll_counts (env : Env) (bs : List EncodedBatch) :
    ∀ m : ExporterPDataMetrics,
    ((uploadAll env bs m).1.countP Event.isAck = 0) ∧
    ((uploadAll env bs m).1.countP Event.isNack = 0) := by
  induction bs with
  | nil => intro m; simp [uploadAll]
  | cons b rest ih =>
    intro m
    have hm := ih (match env.upload b with
                   | .ok _ => incExported m
                   | .error _ => incFailed m)
    rcases hu : uploadAll env rest (match env.upload b with
                                    | .ok _ => incExported m
                                    | .error _ => incFailed m) with ⟨evts, m2⟩
    rw [hu] at hm
    simp only [uploadAll, hu, List.countP_cons]
    simp [Event.isAck, Event.isNack, hm.1, hm.2]

/-! ## Claim theorems -/

/-- Claim C3, counterexample: the claim says conversion succeeds for every
malformation other than a missing "logs" payload, including a present
attribute table whose `parent_id` column is missing.  At this concrete input
the logs payload is present and the log-attribute table merely lacks its
`parent_id` column, yet conversion returns an error instead of succeeding. -/
theorem claim_C3_counterexample :
    convert_otap_to_log_records inputMissingParentId =
      .error (.err "parent_id column not found") :=
  rfl

/-- Claim C3, amended: conversion returns the "no primary data" error when the
logs payload is absent; a present attribute table returns a `Result::Err`
exactly when its `parent_id` column is missing or not `UInt16`, its `key`
column is missing, or its `type` column is missing or not `UInt8`
(`attrColsOf b = none`); other malformations — here a present `key` column of
the wrong physical layout — degrade to omitted attributes and conversion still
succeeds. -/
theorem claim_C3_amended :
    (∀ input : OtapArrowRecords, input.logs = none →
      convert_otap_to_log_records input =
        .error (.err "No logs record batch in OTAP data")) ∧
    (∀ (recs : List LogRecordData) (b : RecordBatch),
      (∃ msg, extract_and_attach_attributes recs b = .error (.err msg)) ↔
      attrColsOf b = none) ∧
    (∀ (recs : List LogRecordData) (b : RecordBatch) (rids : List (Option Nat)),
      (∃ msg, extract_and_attach_resource_attributes recs b rids = .error (.err msg)) ↔
      attrColsOf b = none) ∧
    convert_otap_to_log_records inputWrongKeyLayout = .ok [emptyLogRecord] := by
  refine ⟨fun input hnone => ?_, extract_attrs_err_iff, extract_res_err_iff, rfl⟩
  unfold convert_otap_to_log_records
  split
  · rfl
  next lb hlb =>
    rw [hnone] at hlb
    cases hlb

/-- Claim C3, witness: the "logs absent" arm and the column-error equivalence
of the amended theorem, instantiated at concrete inputs. -/
theorem claim_C3_witness :
    convert_otap_to_log_records
        { logs := none, logAttrs := none, resourceAttrs := none } =
      .error (.err "No logs record batch in OTAP data") ∧
    (∃ msg, extract_and_attach_attributes [] abNoCols = .error (.err msg)) :=
  ⟨claim_C3_amended.1 _ rfl, (claim_C3_amended.2.1 [] abNoCols).mpr rfl⟩

/-- Claim C4: whenever conversion succeeds on a primary table with `nrows`
rows, it returns exactly `nrows` records; record `j` is exactly the record
built from primary row `j` (up to its attribute list), so record order equals
row order; and independently of any attribute tables, a primary table with no
columns at all still yields one (empty) record per row. -/
theorem claim_C4 {input : OtapArrowRecords} {lb : RecordBatch}
    {recs : List LogRecordData}
    (hlogs : input.logs = some lb)
    (h : convert_otap_to_log_records input = .ok recs) :
    recs.length = lb.nrows ∧
    (∀ (j : Nat) (r : LogRecordData), recs[j]? = some r →
      ∃ r0, buildRow (primaryCols lb) j = .ok r0 ∧
        r = { r0 with attributes := r.attributes }) ∧
    (∀ n : Nat, convert_otap_to_log_records
        { logs := some { nrows := n, cols := [] }, logAttrs := none,
          resourceAttrs := none } =
      .ok (List.replicate n emptyLogRecord)) := by
  obtain ⟨hlen, hchar⟩ := convert_char hlogs h
  refine ⟨hlen, fun j r hr => ?_, convert_emptyCols⟩
  obtain ⟨r0, hr0, hre⟩ := hchar j r hr
  exact ⟨r0, hr0, by rw [hre]⟩

/-- Claim C4, witness: the two-row witness input converts to exactly two
records, and record 1 is the row-1 record up to attributes. -/
theorem claim_C4_witness :
    recsW.length = lbW.nrows ∧
    (∃ r0, buildRow (primaryCols lbW) 1 = .ok r0 ∧
      emptyLogRecord = { r0 with attributes := emptyLogRecord.attributes }) := by
  have h := @claim_C4 inputW lbW recsW rfl rfl
  exact ⟨h.1, h.2.1 1 emptyLogRecord rfl⟩

/-- Claim C5, counterexample: the claim says a dictionary key index out of
range of the values array makes the access yield `None`.  At this concrete
column (key index 5 into a one-element values array) the severity-text
accessor panics instead of yielding `None`. -/
theorem claim_C5_counterexample :
    get_severity_text (Col.dict8 oobDict) 0 = .error Fail.panic ∧
    get_severity_text (Col.dict8 oobDict) 0 ≠ .ok none :=
  ⟨rfl, by
    intro hcontra
    have h2 : (Except.error Fail.panic : Except Fail (Option String)) = .ok none :=
      hcontra
    cases h2⟩

/-- Claim C5, amended: the dictionary accessors yield `None` exactly when the
key cell is null (first conjunct, for every accessor used by the exporter);
but the key-index-to-values lookup is not bounds-checked: a key index outside
the values array is a panic (`values.value(key_idx)` in arrow), not `None`
(second and third conjuncts). -/
theorem claim_C5_amended :
    (∀ (d : DictCol) (i : Nat), d.isNullAt i = true →
      get_severity_text (Col.dict8 d) i = .ok none ∧
      get_severity_number (Col.dict8 d) i = .ok none ∧
      extractDictKey8Str (Col.dict8 d) i = .ok none ∧
      extractStrValue (some (Col.dict16 d)) i = .ok none ∧
      extractIntValue (some (Col.dict16 d)) i = .ok none) ∧
    (∀ (d : DictCol) (i k : Nat) (vs : List String),
      d.isNullAt i = false → d.keys.vals[i]? = some k → d.values = .strs vs →
      vs[k]? = none → get_severity_text (Col.dict8 d) i = .error .panic) ∧
    (∀ (d : DictCol) (i k : Nat) (vs : List String),
      d.isNullAt i = false → d.keys.vals[i]? = some k → d.values = .strs vs →
      vs[k]? = none → extractStrValue (some (Col.dict16 d)) i = .error .panic) := by
  refine ⟨fun d i hnull => ?_, fun d i k vs hnull hk hvs hnone => ?_,
    fun d i k vs hnull hk hvs hnone => ?_⟩
  · exact ⟨by simp [get_severity_text, Col.asDict8, hnull],
      by simp [get_severity_number, Col.asDict8, hnull],
      by simp [extractDictKey8Str, Col.asDict8, hnull],
      by simp [extractStrValue, Col.asDict16, Option.bind, hnull],
      by simp [extractIntValue, Col.asDict16, Option.bind, hnull]⟩
  · simp [get_severity_text, Col.asDict8, hnull, valueAt_ok_iff.mpr hk, hvs,
      Vals.asStrs, hnone]
  · simp [extractStrValue, Col.asDict16, Option.bind, hnull,
      valueAt_ok_iff.mpr hk, hvs, Vals.asStrs, hnone]

/-- Claim C5, witness: the amended theorem applied at the out-of-range
dictionary (panic) and at a null key cell (`None`). -/
theorem claim_C5_witness :
    get_severity_text (Col.dict8 oobDict) 0 = .error .panic ∧
    get_severity_text
        (Col.dict8 { keys := { vals := [0], nulls := [true] },
                     values := .strs ["a"] }) 0 = .ok none :=
  ⟨claim_C5_amended.2.1 oobDict 0 5 ["a"] rfl rfl rfl rfl,
   (claim_C5_amended.1 { keys := { vals := [0], nulls := [true] },
                         values := .strs ["a"] } 0 rfl).1⟩

/-- Claim C6, counterexample: the claim says the joining algorithm is
identical for the two tables and a type-2 row yields an Int value in both.
On the same one-row batch with type tag 2 and a well-formed `int` column, the
log-attribute join attaches `Int 42` while the resource-attribute join
attaches nothing. -/
theorem claim_C6_counterexample :
    extract_and_attach_attributes [emptyLogRecord] tag2AttrBatch =
      .ok [{ emptyLogRecord with
              attributes := [{ key := "k", value := .int 42 }] }] ∧
    extract_and_attach_resource_attributes [emptyLogRecord] tag2AttrBatch [some 0] =
      .ok [emptyLogRecord] ∧
    ([{ key := "k", value := AttributeValue.int 42 }] : List LogAttribute) ≠ [] :=
  ⟨rfl, rfl, by decide⟩

/-- Claim C6, amended: both joins resolve type tag 1 identically through the
same string-value extraction; but the resource-attribute join skips every tag
other than 1 — including tag 2, which the log-attribute join resolves as a
signed 64-bit Int (concrete conjuncts on the same batch). -/
theorem claim_C6_amended :
    (∀ (sc : Option Col) (t i : Nat), t ≠ 1 → resMapValue sc t i = .ok none) ∧
    (∀ (sc : Option Col) (i : Nat), resMapValue sc 1 i = extractStrValue sc i) ∧
    extract_and_attach_attributes [emptyLogRecord] tag2AttrBatch =
      .ok [{ emptyLogRecord with
              attributes := [{ key := "k", value := .int 42 }] }] ∧
    extract_and_attach_resource_attributes [emptyLogRecord] tag2AttrBatch [some 0] =
      .ok [emptyLogRecord] :=
  ⟨fun sc t i ht => by simp [resMapValue, ht],
   fun sc i => by simp [resMapValue],
   rfl, rfl⟩

/-- Claim C6, witness: the amended theorem's skip arm applied to tag 2 with a
well-formed int dictionary column present. -/
theorem claim_C6_witness :
    resMapValue
        (some (Col.dict16 { keys := { vals := [0], nulls := [false] },
                            values := .i64s [42] })) 2 0 = .ok none :=
  claim_C6_amended.1 _ 2 0 (by decide)

/-- Claim C7: in every record produced by a successful conversion, the
attribute list is exactly the log attributes collected for that record (in
attribute-table scan order) followed by the resource attributes of its
resource id (in scan order) — log attributes before resource attributes, with
no deduplication (the two parts are concatenated as-is). -/
theorem claim_C7 {input : OtapArrowRecords} {lb : RecordBatch}
    {recs : List LogRecordData}
    (hlogs : input.logs = some lb)
    (h : convert_otap_to_log_records input = .ok recs) :
    ∀ (j : Nat) (r : LogRecordData), recs[j]? = some r →
      r.attributes = logAttrsPart input lb.nrows j ++ resAttrsPart input lb j := by
  obtain ⟨-, hchar⟩ := convert_char hlogs h
  intro j r hr
  obtain ⟨r0, -, hre⟩ := hchar j r hr
  rw [hre]

/-- Claim C7, witness: record 0 of the witness input carries its log attribute
("a","x") before its resource attribute ("r","z"). -/
theorem claim_C7_witness :
    ({ emptyLogRecord with
        attributes := [{ key := "a", value := AttributeValue.str "x" },
                       { key := "r", value := AttributeValue.str "z" }] }
      : LogRecordData).attributes =
      logAttrsPart inputW lbW.nrows 0 ++ resAttrsPart inputW lbW 0 :=
  @claim_C7 inputW lbW recsW rfl rfl 0 _ rfl

/-- Claim C8: records' attribute lists are exactly the per-row contributions
(first conjunct), and a log-attribute row whose `parent_id` cell is null
(second conjunct) or whose `parent_id` is at least the record count (third
conjunct) contributes to no record; a resource-attribute row with a null
`parent_id` contributes nothing (fourth conjunct), and a row whose
contribution targets a different resource id adds nothing to a record's
collected list (fifth conjunct) — so such rows leak into no record. -/
theorem claim_C8 {input : OtapArrowRecords} {lb : RecordBatch}
    {recs : List LogRecordData}
    (hlogs : input.logs = some lb)
    (h : convert_otap_to_log_records input = .ok recs) :
    (∀ (j : Nat) (r : LogRecordData), recs[j]? = some r →
      r.attributes = logAttrsPart input lb.nrows j ++ resAttrsPart input lb j) ∧
    (∀ (pc tc : PrimCol Nat) (kc : Col) (sc ic : Option Col) (nrecs i : Nat),
      pc.isNullAt i = true → logRowContrib pc tc kc sc ic nrecs i = none) ∧
    (∀ (pc tc : PrimCol Nat) (kc : Col) (sc ic : Option Col) (nrecs i p : Nat),
      pc.vals[i]? = some p → nrecs ≤ p →
      logRowContrib pc tc kc sc ic nrecs i = none) ∧
    (∀ (pc tc : PrimCol Nat) (kc : Col) (sc : Option Col) (i : Nat),
      pc.isNullAt i = true → resRowContrib pc tc kc sc i = none) ∧
    (∀ (pc tc : PrimCol Nat) (kc : Col) (sc : Option Col) (rows : List Nat)
       (q i : Nat),
      (match resRowContrib pc tc kc sc i with
       | none => True
       | some pkv => pkv.1 ≠ q) →
      collectRes pc tc kc sc (i :: rows) q = collectRes pc tc kc sc rows q) := by
  obtain ⟨-, hchar⟩ := convert_char hlogs h
  refine ⟨fun j r hr => ?_, fun pc tc kc sc ic nrecs i hnull => ?_,
    fun pc tc kc sc ic nrecs i p hp hge => ?_,
    fun pc tc kc sc i hnull => ?_, fun pc tc kc sc rows q i hno => ?_⟩
  · obtain ⟨r0, -, hre⟩ := hchar j r hr
    rw [hre]
  · simp [logRowContrib, hnull]
  · unfold logRowContrib
    split
    · rfl
    · rw [valueAt_ok_iff.mpr hp]
      simp [hge]
  · simp [resRowContrib, hnull]
  · rcases hco : resRowContrib pc tc kc sc i with _ | ⟨p, kv⟩
    · simp [collectRes, List.filterMap_cons, hco]
    · rw [hco] at hno
      simp [collectRes, List.filterMap_cons, hco, hno]

/-- Claim C8, witness: applied to the witness input — row 1 of the
log-attribute table (parent 5, only 2 records) and row 2 (null parent)
contribute nothing, and record 1's attribute list is empty accordingly. -/
theorem claim_C8_witness :
    (emptyLogRecord : LogRecordData).attributes =
      logAttrsPart inputW lbW.nrows 1 ++ resAttrsPart inputW lbW 1 ∧
    logRowContrib { vals := [0, 5, 0], nulls := [false, false, true] }
      { vals := [1, 1, 1], nulls := [false, false, false] }
      (Col.dict8 { keys := { vals := [0, 1, 0], nulls := [false, false, false] },
                   values := .strs ["a", "b"] })
      none none 2 2 = none ∧
    logRowContrib { vals := [0, 5, 0], nulls := [false, false, true] }
      { vals := [1, 1, 1], nulls := [false, false, false] }
      (Col.dict8 { keys := { vals := [0, 1, 0], nulls := [false, false, false] },
                   values := .strs ["a", "b"] })
      none none 2 1 = none := by
  have h := @claim_C8 inputW lbW recsW rfl rfl
  exact ⟨h.1 1 emptyLogRecord rfl, h.2.1 _ _ _ _ _ 2 2 rfl,
    h.2.2.1 _ _ _ _ _ 2 1 5 rfl (by decide)⟩

/-- Claim C1, counterexample: the claim says an acknowledgement is emitted
only if every non-empty batch uploaded successfully, and a negative
acknowledgement otherwise.  At this concrete input the single batch upload
fails (`logs_failed` goes to 1), yet the step emits the acknowledgement and no
negative acknowledgement; and a non-logs signal emits neither. -/
theorem claim_C1_counterexample :
    GenevaExporter.step 1 failUploadEnv initState
        (.pdata { signal := .logs, payload := .otapArrowRecords inputOneEmptyRow }) =
      ([Event.ack, Event.encodeCall [emptyLogRecord], Event.uploadCall batchL],
       .next { buffer := [],
               metrics := { logs_consumed := 1, logs_exported := 0,
                            logs_failed := 1 } }) ∧
    failUploadEnv.upload batchL = .error "upload refused" ∧
    (GenevaExporter.step 4 failUploadEnv initState
        (.pdata { signal := .traces, payload := .otherPayload })).1 = [] :=
  ⟨rfl, rfl, rfl⟩

/-- Claim C1, amended: every inbound logs signal is acknowledged exactly once,
unconditionally and before decode/upload outcomes are known; no message ever
produces a negative acknowledgement; and non-logs signals (and non-data
messages) produce no acknowledgement at all. -/
theorem claim_C1_amended (maxB : Nat) (env : Env) (st : ExporterState)
    (msg : NodeMsg) :
    (GenevaExporter.step maxB env st msg).1.countP Event.isAck =
      (match msg with
       | .pdata d => if d.signal = SignalType.logs then 1 else 0
       | _ => 0) ∧
    (GenevaExporter.step maxB env st msg).1.countP Event.isNack = 0 := by
  cases msg with
  | shutdown ddl =>
    by_cases hb : st.buffer.isEmpty <;>
      simp [GenevaExporter.step, hb, Event.isAck, Event.isNack]
  | collectTelemetry => simp [GenevaExporter.step]
  | otherMsg => simp [GenevaExporter.step]
  | pdata d =>
    rcases d with ⟨sig, pl⟩
    by_cases hsig : sig = SignalType.logs
    · subst hsig
      rcases pl with r | _
      · rcases hc : convert_otap_to_log_records r with e | records
        · rcases e with msg2 | _
          · simp [GenevaExporter.step, hc, Event.isAck, Event.isNack]
          · simp [GenevaExporter.step, hc, Event.isAck, Event.isNack]
        · by_cases hlen : maxB ≤ st.buffer.length + records.length
          · rcases hen : env.encode (st.buffer ++ records) with emsg | batches
            · simp [GenevaExporter.step, hc, hlen, hen, Event.isAck, Event.isNack]
            · rcases hu : uploadAll env batches (incConsumed st.metrics)
                with ⟨uevts, m2⟩
              have hcounts := uploadAll_counts env batches (incConsumed st.metrics)
              rw [hu] at hcounts
              simp [GenevaExporter.step, hc, hlen, hen, hu, List.countP_cons,
                Event.isAck, Event.isNack, hcounts.1, hcounts.2,
                -List.countP_eq_zero]
          · simp [GenevaExporter.step, hc, hlen, Event.isAck, Event.isNack]
      · simp [GenevaExporter.step, Event.isAck, Event.isNack]
    · simp [GenevaExporter.step, hsig, Event.isAck, Event.isNack]

/-- Claim C9, code evaluation: at a state holding one buffered record, a
shutdown message makes the step pass the buffer to the encoder and stop,
returning the given deadline and the accumulated metrics — but it performs no
upload call at all, although the encoder produced a non-empty batch: the
encoded shutdown flush is discarded. -/
theorem claim_C9_code_eval :
    GenevaExporter.step 4 okEnv bufferedState (.shutdown 7) =
      ([Event.encodeCall [emptyLogRecord]],
       .done { deadline := 7,
               metrics := { logs_consumed := 5, logs_exported := 2,
                            logs_failed := 3 } }) ∧
    okEnv.encode [emptyLogRecord] = .ok [batchL] ∧
    (GenevaExporter.step 4 okEnv bufferedState (.shutdown 7)).1.countP
        Event.isUpload = 0 :=
  ⟨rfl, rfl, rfl⟩

/-- Claim C10: (1) with a positive capacity, a buffer below capacity stays
below capacity across any message; (2) a data message whose converted records
leave the buffer below capacity only appends — no encode or upload happens
(the step emits exactly the acknowledgement); (3) once the buffer reaches
capacity the flush leaves the buffer empty for every environment, so encode
and upload failures also clear it and failed records are never retried. -/
theorem claim_C10 :
    (∀ (maxB : Nat) (env : Env) (st : ExporterState) (msg : NodeMsg)
       (evts : List Event) (st' : ExporterState), 0 < maxB →
       st.buffer.length < maxB →
       GenevaExporter.step maxB env st msg = (evts, .next st') →
       st'.buffer.length < maxB) ∧
    (∀ (maxB : Nat) (env : Env) (st : ExporterState) (b : OtapArrowRecords)
       (records : List LogRecordData),
       convert_otap_to_log_records b = .ok records →
       (st.buffer ++ records).length < maxB →
       GenevaExporter.step maxB env st
           (.pdata { signal := .logs, payload := .otapArrowRecords b }) =
         ([Event.ack],
          .next { buffer := st.buffer ++ records,
                  metrics := incConsumed st.metrics })) ∧
    (∀ (maxB : Nat) (env : Env) (st : ExporterState) (b : OtapArrowRecords)
       (records : List LogRecordData),
       convert_otap_to_log_records b = .ok records →
       maxB ≤ (st.buffer ++ records).length →
       ∃ evts m2, GenevaExporter.step maxB env st
           (.pdata { signal := .logs, payload := .otapArrowRecords b }) =
         (evts, .next { buffer := [], metrics := m2 })) := by
  refine ⟨?_, ?_, ?_⟩
  · intro maxB env st msg evts st' hmax hbuf h
    cases msg with
    | shutdown ddl => simp [GenevaExporter.step] at h
    | collectTelemetry =>
      simp [GenevaExporter.step] at h
      rw [← h.2]
      exact hbuf
    | otherMsg =>
      simp [GenevaExporter.step] at h
      rw [← h.2]
      exact hbuf
    | pdata d =>
      rcases d with ⟨sig, pl⟩
      by_cases hsig : sig = SignalType.logs
      · subst hsig
        rcases pl with r | _
        · rcases hc : convert_otap_to_log_records r with e | records
          · rcases e with msg2 | _
            · simp [GenevaExporter.step, hc] at h
              rw [← h.2]
              exact hbuf
            · simp [GenevaExporter.step, hc] at h
          · by_cases hlen : maxB ≤ st.buffer.length + records.length
            · rcases hen : env.encode (st.buffer ++ records) with emsg | batches
              · simp [GenevaExporter.step, hc, hlen, hen] at h
                rw [← h.2]
                simpa using hmax
              · rcases hu : uploadAll env batches (incConsumed st.metrics)
                  with ⟨uevts, m2⟩
                simp [GenevaExporter.step, hc, hlen, hen, hu] at h
                rw [← h.2]
                simpa using hmax
            · simp [GenevaExporter.step, hc, hlen] at h
              rw [← h.2]
              simp only [List.length_append]
              omega
        · simp [GenevaExporter.step] at h
          rw [← h.2]
          exact hbuf
      · simp [GenevaExporter.step, hsig] at h
        rw [← h.2]
        exact hbuf
  · intro maxB env st b records hc hlen
    have hnle : ¬maxB ≤ st.buffer.length + records.length := by
      rw [List.length_append] at hlen
      omega
    simp [GenevaExporter.step, hc, hnle]
  · intro maxB env st b records hc hlen
    have hlen2 : maxB ≤ st.buffer.length + records.length := by
      simpa [List.length_append] using hlen
    rcases hen : env.encode (st.buffer ++ records) with emsg | batches
    · exact ⟨[Event.ack, Event.encodeCall (st.buffer ++ records)],
        incFailed (incConsumed st.metrics),
        by simp [GenevaExporter.step, hc, hlen2, hen]⟩
    · rcases hu : uploadAll env batches (incConsumed st.metrics) with ⟨uevts, m2⟩
      exact ⟨Event.ack :: Event.encodeCall (st.buffer ++ records) :: uevts, m2,
        by simp [GenevaExporter.step, hc, hlen2, hen, hu]⟩

/-- Claim C10, witness: with capacity 3 and one buffered record, a data
message carrying one converted record only appends to the buffer and emits
exactly the acknowledgement. -/
theorem claim_C10_witness :
    GenevaExporter.step 3 okEnv { buffer := [emptyLogRecord], metrics := zeroMetrics }
        (.pdata { signal := .logs, payload := .otapArrowRecords inputOneEmptyRow }) =
      ([Event.ack],
       .next { buffer := [emptyLogRecord, emptyLogRecord],
               metrics := incConsumed zeroMetrics }) := by
  have h := claim_C10.2.1 3 okEnv { buffer := [emptyLogRecord], metrics := zeroMetrics }
    inputOneEmptyRow [emptyLogRecord] rfl (by decide)
  simpa using h

/-- Claim C2, counterexample: with the default policy (`max_retries = 3`,
documented in the source as "maximum number of attempts per batch (initial
try + retries)") an uploader failing on attempts 1..3 never reaches attempt 4:
the spec-modelled retry loop stops after 3 attempts with delays 100ms and
200ms and reports failure, not the claimed success with delays
100ms/200ms/400ms. -/
theorem claim_C2_counterexample :
    upload_with_retry BatchRetryConfig.default succeedOn4 =
      { success := false, delays := [100, 200], attempts := [1, 2, 3] } ∧
    (upload_with_retry BatchRetryConfig.default succeedOn4).success = false := by
  have h : upload_with_retry BatchRetryConfig.default succeedOn4 =
      { success := false, delays := [100, 200], attempts := [1, 2, 3] } := by
    norm_num [upload_with_retry, effectiveMaxAttempts, BatchRetryConfig.default,
      attemptSeq, nextDelay, succeedOn4]
  exact ⟨h, by rw [h]⟩

/-- Claim C2, amended: under the default policy, three attempts are made with
exponential delays 100ms then 200ms between them: an uploader failing on
attempts 1-2 and succeeding on attempt 3 yields overall success, one failing
on attempts 1-3 yields terminal failure, and with `enabled = false` exactly
one attempt is made regardless of `max_retries`. -/
theorem claim_C2_amended :
    (∀ f : Nat → Bool, f 1 = false → f 2 = false → f 3 = true →
      upload_with_retry BatchRetryConfig.default f =
        { success := true, delays := [100, 200], attempts := [1, 2, 3] }) ∧
    (∀ f : Nat → Bool, f 1 = false → f 2 = false → f 3 = false →
      upload_with_retry BatchRetryConfig.default f =
        { success := false, delays := [100, 200], attempts := [1, 2, 3] }) ∧
    (∀ (p : BatchRetryConfig) (f : Nat → Bool), p.enabled = false →
      (upload_with_retry p f).attempts = [1]) := by
  refine ⟨fun f h1 h2 h3 => ?_, fun f h1 h2 h3 => ?_, fun p f hp => ?_⟩
  · norm_num [upload_with_retry, effectiveMaxAttempts, BatchRetryConfig.default,
      attemptSeq, nextDelay, h1, h2, h3]
  · norm_num [upload_with_retry, effectiveMaxAttempts, BatchRetryConfig.default,
      attemptSeq, nextDelay, h1, h2, h3]
  · unfold upload_with_retry effectiveMaxAttempts
    rw [hp]
    cases hf : f 1 <;> simp [attemptSeq, hf]

/-- Claim C2, witness: the amended theorem applied to an uploader succeeding
exactly on attempt 3, and to a disabled policy. -/
theorem claim_C2_witness :
    upload_with_retry BatchRetryConfig.default succeedOn3 =
      { success := true, delays := [100, 200], attempts := [1, 2, 3] } ∧
    (upload_with_retry disabledRetryConfig succeedOn4).attempts = [1] :=
  ⟨claim_C2_amended.1 succeedOn3 rfl rfl rfl,
   claim_C2_amended.2.2 disabledRetryConfig succeedOn4 rfl⟩

end GenevaSpec
